import Mathlib

/-!
Pawtner Hope Foundation API: a shallow embedding of `server_new.js` and `server_old.js`

The handlers of the two servers are translated to pure functions over an explicit store.

Modelling conventions.
* A JavaScript value is a `JsVal`.  Numbers are the integers plus `NaN` and the two infinities; an
  integer-valued double is represented by its mathematical value.  Addition rounds its exact
  result to the nearest double, ties to even (`roundInt`), so it is exact up to `2^53` and loses
  the low bits beyond.  Doubles with a fractional part are not represented.
* An array or a nested object is represented by the string its `toString()` yields (`JsVal.obj`);
  such a value is always truthy and is never `===` to a primitive.
* A record is the list of its own properties in insertion order; `item[key]` on a record is
  own-property lookup.  The accumulators of the statistics, which start as `{}` and are indexed by
  data, also see the members inherited from `Object.prototype` (`lookupProp`, `assignProp`).
* The file `data.json` is a `Store`: `none` when it cannot be read or parsed, `some doc` otherwise.
  Whether `fs.writeFileSync` succeeds is an input `ok : Bool` of every mutating handler.
-/

namespace Pawtner

/-! ## JavaScript values -/

/-- A JavaScript value of the fragment used by the servers. -/
inductive JsVal where
  | undefined
  | null
  | bool (b : Bool)
  | num (n : Int)
  | nan
  | inf (negative : Bool)
  | str (s : String)
  | obj (repr : String)
  deriving DecidableEq, Repr, Inhabited

open JsVal

/-- Truthiness (`ToBoolean`): `undefined`, `null`, `false`, `0`, `NaN` and `""` are falsy. -/
def truthy : JsVal → Bool
  | undefined => false
  | null => false
  | JsVal.bool b => b
  | num n => n != 0
  | nan => false
  | inf _ => true
  | str s => s.data != []
  | obj _ => true

/-- Decimal digits of a natural number, as printed by `Number.prototype.toString`. -/
def natToString (n : Nat) : List Char := Nat.toDigits 10 n

/-- `Number.prototype.toString` on an integer-valued number. -/
def numToString (n : Int) : String :=
  if n < 0 then ⟨'-' :: natToString n.natAbs⟩ else ⟨natToString n.toNat⟩

/-- The string form of a value: `ToString`, which is what `.toString()` returns on every
truthy value of the fragment. -/
def toStr : JsVal → String
  | undefined => "undefined"
  | null => "null"
  | JsVal.bool b => if b then "true" else "false"
  | num n => numToString n
  | nan => "NaN"
  | inf negative => if negative then "-Infinity" else "Infinity"
  | str s => s
  | obj repr => repr

/-- `String.prototype.toLowerCase`, on the ASCII letters. -/
def toLowerCase (s : String) : String := ⟨s.data.map Char.toLower⟩

/-- Whether `needle` is a prefix of `hay`. -/
def startsWith : List Char → List Char → Bool
  | [], _ => true
  | _ :: _, [] => false
  | a :: as, b :: bs => a == b && startsWith as bs

/-- Whether `needle` occurs in `hay` at some position. -/
def occursIn (needle : List Char) : List Char → Bool
  | [] => startsWith needle []
  | c :: cs => startsWith needle (c :: cs) || occursIn needle cs

/-- `String.prototype.includes`: `s.includes(t)`. -/
def includes (s t : String) : Bool := occursIn t.data s.data

/-- White space skipped by `parseInt` and trimmed by `ToNumber` (`StrWhiteSpaceChar`). -/
def isWhiteSpace (c : Char) : Bool :=
  let n := c.toNat
  n == 9 || n == 10 || n == 11 || n == 12 || n == 13 || n == 32 || n == 160 || n == 5760 ||
  (8192 ≤ n && n ≤ 8202) || n == 8232 || n == 8233 || n == 8239 || n == 8287 || n == 12288 ||
  n == 65279

/-- Value of a character as a digit in radix up to 36; `36` when it is not alphanumeric. -/
def digitVal (c : Char) : Nat :=
  let n := c.toNat
  if 48 ≤ n ∧ n ≤ 57 then n - 48
  else if 97 ≤ n ∧ n ≤ 122 then n - 87
  else if 65 ≤ n ∧ n ≤ 90 then n - 55
  else 36

/-- Value of a digit string in the given radix. -/
def digitsValue (radix : Nat) (cs : List Char) : Nat :=
  cs.foldl (fun acc c => acc * radix + digitVal c) 0

/-- Strip an optional sign: returns whether it was `-` and the rest. -/
def stripSign : List Char → Bool × List Char
  | [] => (false, [])
  | c :: cs => if c = '-' then (true, cs) else if c = '+' then (false, cs) else (false, c :: cs)

/-- Strip an optional `0x` / `0X` prefix: returns the radix and the rest. -/
def stripHexPrefix : List Char → Nat × List Char
  | c :: d :: cs => if c = '0' ∧ (d = 'x' ∨ d = 'X') then (16, cs) else (10, c :: d :: cs)
  | cs => (10, cs)

/-- The algorithm of `parseInt(string)` with no radix argument, on the characters of the string. -/
def parseIntChars (cs : List Char) : JsVal :=
  let s := cs.dropWhile isWhiteSpace
  let (negative, s) := stripSign s
  let (radix, s) := stripHexPrefix s
  let z := s.takeWhile (fun c => digitVal c < radix)
  if z = [] then nan
  else if negative then num (-(digitsValue radix z : Int)) else num (digitsValue radix z)

/-- Global `parseInt(v)`: the argument is first converted to a string. -/
def parseInt (v : JsVal) : JsVal := parseIntChars (toStr v).data

/-- Trim `StrWhiteSpaceChar` from both ends. -/
def trimWhiteSpace (cs : List Char) : List Char :=
  ((cs.dropWhile isWhiteSpace).reverse.dropWhile isWhiteSpace).reverse

/-- The digits of a literal in the given radix, if all of them are digits and there is one. -/
def radixLiteral (radix : Nat) (cs : List Char) : JsVal :=
  if cs ≠ [] ∧ cs.all (fun c => digitVal c < radix) then num (digitsValue radix cs) else nan

/-- `StringToNumber` on the literals that denote an integer or an infinity: the empty string,
signed decimal digits, `0x` / `0o` / `0b` literals and `Infinity`.  Literals with a fraction or an
exponent denote doubles outside the fragment and are mapped to `NaN`. -/
def stringToNumber (s : String) : JsVal :=
  let cs := trimWhiteSpace s.data
  if cs = [] then num 0
  else if cs = "Infinity".data ∨ cs = "+Infinity".data then inf false
  else if cs = "-Infinity".data then inf true
  else match cs with
    | c :: d :: rest =>
      if c = '0' ∧ (d = 'x' ∨ d = 'X') then radixLiteral 16 rest
      else if c = '0' ∧ (d = 'o' ∨ d = 'O') then radixLiteral 8 rest
      else if c = '0' ∧ (d = 'b' ∨ d = 'B') then radixLiteral 2 rest
      else match stripSign cs with
        | (true, ds) =>
          if ds ≠ [] ∧ ds.all (fun c => digitVal c < 10) then num (-(digitsValue 10 ds : Int))
          else nan
        | (false, ds) => radixLiteral 10 ds
    | ds => radixLiteral 10 ds

/-- Abstract operation `ToNumber`. -/
def toNumber : JsVal → JsVal
  | undefined => nan
  | null => num 0
  | JsVal.bool b => if b then num 1 else num 0
  | num n => num n
  | nan => nan
  | inf negative => inf negative
  | str s => stringToNumber s
  | obj repr => stringToNumber repr

/-- The larger of two numbers, `NaN` if either is `NaN` (one step of `Math.max`). -/
def maxNum : JsVal → JsVal → JsVal
  | num a, num b => num (max a b)
  | num a, inf negative => if negative then num a else inf false
  | inf negative, num b => if negative then num b else inf false
  | inf a, inf b => inf (a && b)
  | _, _ => nan

/-- `Math.max(...vs)`: every argument is converted with `ToNumber`; `-Infinity` for no argument. -/
def mathMax (vs : List JsVal) : JsVal :=
  vs.foldl (fun acc v => maxNum acc (toNumber v)) (inf true)

/-- How often a natural number is halved until it is below `2^53`: the exponent of the unit in
the last place of the double nearest to it. -/
def halvings : Nat → Nat → Nat
  | 0, _ => 0
  | fuel + 1, m => if m < 9007199254740992 then 0 else halvings fuel (m / 2) + 1

/-- The double nearest to a natural number, ties to the even significand: a double has 53
significant bits, so above `2^53` only the multiples of the unit `2 ^ halvings m m` exist. -/
def roundNat (m : Nat) : Nat :=
  let u := 2 ^ halvings m m
  let q := m / u
  let r := m % u
  if 2 * r < u then q * u
  else if u < 2 * r then (q + 1) * u
  else if q % 2 = 0 then q * u else (q + 1) * u

/-- The double nearest to an integer.  Overflow to an infinity is left out: it needs a result of
about `2^1024`, which adding 1 to a double never reaches and which the statements on sums
exclude by their bounds. -/
def roundInt (n : Int) : Int :=
  if n < 0 then -(roundNat n.natAbs : Int) else (roundNat n.toNat : Int)

/-- Sum of two numbers: the exact sum rounded to the nearest double. -/
def addNum : JsVal → JsVal → JsVal
  | num a, num b => num (roundInt (a + b))
  | num _, inf negative => inf negative
  | inf negative, num _ => inf negative
  | inf a, inf b => if a = b then inf a else nan
  | _, _ => nan

/-- Whether `ToPrimitive` of the value is a string. -/
def isStringLike : JsVal → Bool
  | str _ => true
  | obj _ => true
  | _ => false

/-- The binary operator `a + b`: concatenation when either operand is string-like, else addition. -/
def jsAdd (a b : JsVal) : JsVal :=
  if isStringLike a || isStringLike b then str ⟨(toStr a).data ++ (toStr b).data⟩
  else addNum (toNumber a) (toNumber b)

/-- Strict equality `a === b` against a primitive: `NaN` equals nothing, and an array or object is
never identical to a primitive or to a freshly built value. -/
def strictEq : JsVal → JsVal → Bool
  | nan, _ => false
  | _, nan => false
  | obj _, _ => false
  | _, obj _ => false
  | a, b => a == b

/-! ## Records and the document -/

/-- A record: its own properties, in insertion order. -/
abbrev Record := List (String × JsVal)

/-- Property read `item[key]`: `undefined` when the record has no such property. -/
def getProp : Record → String → JsVal
  | [], _ => undefined
  | (k, v) :: rest, key => if k = key then v else getProp rest key

/-- Property write on a copy: replaces the value in place or appends the property. -/
def setProp : Record → String → JsVal → Record
  | [], key, v => [(key, v)]
  | (k, w) :: rest, key, v => if k = key then (k, v) :: rest else (k, w) :: setProp rest key v

/-- Object spread: the properties of `source` written over a copy of `target`, in order. -/
def spread (target source : Record) : Record :=
  source.foldl (fun acc kv => setProp acc kv.1 kv.2) target

/-- What `JSON.parse(JSON.stringify(v))` yields for a property value: `NaN` and the infinities
are written as `null`. -/
def jsonValue : JsVal → JsVal
  | nan => null
  | inf _ => null
  | v => v

/-- What `JSON.parse(JSON.stringify(r))` yields for a record: properties whose value is
`undefined` are dropped. -/
def jsonRecord (r : Record) : Record :=
  (r.filter (fun kv => kv.2 != undefined)).map (fun kv => (kv.1, jsonValue kv.2))

/-- The persisted document: three ordered collections. -/
structure Document where
  pets : List Record
  volunteers : List Record
  donations : List Record
  deriving DecidableEq, Repr

/-- The document as it is read back after `JSON.stringify` wrote it. -/
def jsonDocument (d : Document) : Document :=
  { pets := d.pets.map jsonRecord
    volunteers := d.volunteers.map jsonRecord
    donations := d.donations.map jsonRecord }

/-- Content of `data.json`: `none` when reading or parsing it fails. -/
abbrev Store := Option Document

/-- The default document of `readDataFromFile`. -/
def emptyDocument : Document := { pets := [], volunteers := [], donations := [] }

/-- The function `readDataFromFile`: the parsed file, or the empty document on any failure. -/
def readDataFromFile (file : Store) : Document :=
  match file with
  | some doc => doc
  | none => emptyDocument

/-- The function `writeDataToFile`: returns whether the write succeeded, and the file afterwards. -/
def writeDataToFile (ok : Bool) (data : Document) (file : Store) : Bool × Store :=
  if ok then (true, some (jsonDocument data)) else (false, file)

/-- The three collections of the document. -/
inductive Coll where
  | pets
  | volunteers
  | donations
  deriving DecidableEq, Repr

/-- The collection `data.pets`, `data.volunteers` or `data.donations`. -/
def Document.coll (d : Document) : Coll → List Record
  | Coll.pets => d.pets
  | Coll.volunteers => d.volunteers
  | Coll.donations => d.donations

/-- The document with one collection replaced. -/
def Document.setColl (d : Document) (c : Coll) (xs : List Record) : Document :=
  match c with
  | Coll.pets => { d with pets := xs }
  | Coll.volunteers => { d with volunteers := xs }
  | Coll.donations => { d with donations := xs }

/-- Capitalised singular noun of a collection, as used in the messages. -/
def Coll.noun : Coll → String
  | Coll.pets => "Pet"
  | Coll.volunteers => "Volunteer"
  | Coll.donations => "Donation"

/-- Lower-case singular noun of a collection. -/
def Coll.lower : Coll → String
  | Coll.pets => "pet"
  | Coll.volunteers => "volunteer"
  | Coll.donations => "donation"

/-- Lower-case plural noun of a collection. -/
def Coll.plural : Coll → String
  | Coll.pets => "pets"
  | Coll.volunteers => "volunteers"
  | Coll.donations => "donations"

/-! ## Helpers of `server_new.js` -/

/-- The helper `generateId`:
`array.length > 0 ? Math.max(...array.map(item => item.id)) + 1 : 1`. -/
def generateId (array : List Record) : JsVal :=
  if array.length > 0 then jsAdd (mathMax (array.map (fun item => getProp item "id"))) (num 1)
  else num 1

/-- The loop body of `filterData` in `server_new.js` for one item: the entries of the query are
visited in order, `_limit` is skipped, and the first entry that does not match rejects the item. -/
def filterItem (item : Record) : List (String × String) → Bool
  | [] => true
  | (key, value) :: rest =>
    if key = "_limit" then filterItem item rest
    else if truthy (getProp item key) &&
        includes (toLowerCase (toStr (getProp item key))) (toLowerCase value) then
      filterItem item rest
    else false

/-- The helper `filterData` of `server_new.js`. -/
def filterData (data : List Record) (queryParams : List (String × String)) : List Record :=
  data.filter (fun item => filterItem item queryParams)

/-- The loop body of `filterData` in `server_old.js`, which has no reserved key. -/
def filterItemOld (item : Record) : List (String × String) → Bool
  | [] => true
  | (key, value) :: rest =>
    if truthy (getProp item key) &&
        includes (toLowerCase (toStr (getProp item key))) (toLowerCase value) then
      filterItemOld item rest
    else false

/-- The helper `filterData` of `server_old.js`. -/
def filterDataOld (data : List Record) (queryParams : List (String × String)) : List Record :=
  data.filter (fun item => filterItemOld item queryParams)

/-- A query-string property `req.query[key]`: a string, or `undefined` when absent. -/
def queryProp : List (String × String) → String → JsVal
  | [], _ => undefined
  | (k, v) :: rest, key => if k = key then str v else queryProp rest key

/-- `xs.slice(0, end)` for a number `end`: `NaN` counts as `0`, a negative `end` is taken from
the length, and the result is clamped to the array. -/
def slice {α : Type} (xs : List α) : JsVal → List α
  | num n => if n < 0 then xs.take (xs.length - n.natAbs) else xs.take n.toNat
  | inf negative => if negative then [] else xs
  | _ => []

/-! ## Responses -/

/-- The `data` member of a response body. -/
inductive Payload where
  | none
  | record (r : Record)
  | records (rs : List Record)
  deriving DecidableEq, Repr

/-- A response: the status code and the members of the JSON body. -/
structure Response where
  status : Nat
  success : Bool
  message : Option String
  count : Option Nat
  data : Payload
  error : Option String
  deriving DecidableEq, Repr

/-- What a handler did: its response, the file afterwards, and the document it handed to
`writeDataToFile`, if it called it. -/
structure Outcome where
  response : Response
  file : Store
  written : Option Document
  deriving DecidableEq, Repr

/-- A failure response `{success: false, message}` with the given status. -/
def failure (status : Nat) (message : String) : Response :=
  { status := status, success := false, message := some message, count := Option.none,
    data := Payload.none, error := Option.none }

/-- The response of the `catch` block after `throw new Error('Failed to save data')`. -/
def saveFailure (message : String) : Response :=
  { status := 500, success := false, message := some message, count := Option.none,
    data := Payload.none, error := some "Failed to save data" }

/-- A success response carrying one record. -/
def success (status : Nat) (message : String) (r : Record) : Response :=
  { status := status, success := true, message := some message, count := Option.none,
    data := Payload.record r, error := Option.none }

/-- The tail of every mutating handler: `if (writeDataToFile(data)) res...json(...) else throw`. -/
def persist (ok : Bool) (data : Document) (file : Store) (onSuccess : Response)
    (errorMessage : String) : Outcome :=
  let result := writeDataToFile ok data file
  if result.1 then { response := onSuccess, file := result.2, written := some data }
  else { response := saveFailure errorMessage, file := result.2, written := some data }

/-! ## Handlers of `server_new.js` -/

/-- The list handlers `GET /api/pets`, `GET /api/volunteers`, `GET /api/donations`. -/
def listRecords (c : Coll) (query : List (String × String)) (file : Store) : Outcome :=
  let data := readDataFromFile file
  let items := data.coll c
  let limit := queryProp query "_limit"
  let filters := query.filter (fun kv => kv.1 != "_limit")
  let items := if filters.length > 0 then filterData items filters else items
  let items := if truthy limit then slice items (parseInt limit) else items
  { response :=
      { status := 200, success := true, message := Option.none, count := some items.length,
        data := Payload.records items, error := Option.none }
    file := file
    written := Option.none }

/-- `Array.prototype.find` with the predicate `p => p.id === id`. -/
def findById (items : List Record) (id : JsVal) : Option Record :=
  items.find? (fun p => strictEq (getProp p "id") id)

/-- `Array.prototype.findIndex` with the predicate `p => p.id === id`; `none` stands for `-1`. -/
def findIndexById : List Record → JsVal → Option Nat
  | [], _ => Option.none
  | p :: rest, id =>
    if strictEq (getProp p "id") id then some 0
    else match findIndexById rest id with
      | some i => some (i + 1)
      | Option.none => Option.none

/-- The handlers `GET /api/pets/:id`, `GET /api/volunteers/:id`, `GET /api/donations/:id`. -/
def getById (c : Coll) (idParam : String) (file : Store) : Outcome :=
  let data := readDataFromFile file
  match findById (data.coll c) (parseInt (str idParam)) with
  | Option.none =>
    { response := failure 404 ⟨c.noun.data ++ " not found".data⟩, file := file,
      written := Option.none }
  | some found =>
    { response :=
        { status := 200, success := true, message := Option.none, count := Option.none,
          data := Payload.record found, error := Option.none }
      file := file
      written := Option.none }

/-- The object literal `newPet` of `POST /api/pets`, built from the body and the loaded data. -/
def newPet (body : Record) (data : Document) : Record :=
  [("id", generateId data.pets), ("name", getProp body "name"), ("type", getProp body "type"),
   ("breed", getProp body "breed"), ("age", parseInt (getProp body "age")),
   ("status", getProp body "status"), ("location", getProp body "location"),
   ("description",
      if truthy (getProp body "description") then getProp body "description" else str "")]

/-- The handler `POST /api/pets`. -/
def createPet (ok : Bool) (body : Record) (file : Store) : Outcome :=
  if !truthy (getProp body "name") || !truthy (getProp body "type") ||
      !truthy (getProp body "breed") || !truthy (getProp body "age") ||
      !truthy (getProp body "status") || !truthy (getProp body "location") then
    { response := failure 400 "Missing required fields: name, type, breed, age, status, location"
      file := file
      written := Option.none }
  else
    let data := readDataFromFile file
    let created := newPet body data
    persist ok { data with pets := data.pets ++ [created] } file
      (success 201 "Pet created successfully" created) "Error creating pet"

/-- The object literal `newVolunteer` of `POST /api/volunteers`. -/
def newVolunteer (body : Record) (data : Document) : Record :=
  [("id", generateId data.volunteers), ("name", getProp body "name"),
   ("role", getProp body "role"), ("experience", parseInt (getProp body "experience")),
   ("location", getProp body "location"), ("contact", getProp body "contact")]

/-- The handler `POST /api/volunteers`. -/
def createVolunteer (ok : Bool) (body : Record) (file : Store) : Outcome :=
  if !truthy (getProp body "name") || !truthy (getProp body "role") ||
      !truthy (getProp body "experience") || !truthy (getProp body "location") ||
      !truthy (getProp body "contact") then
    { response := failure 400 "Missing required fields: name, role, experience, location, contact"
      file := file
      written := Option.none }
  else
    let data := readDataFromFile file
    let created := newVolunteer body data
    persist ok { data with volunteers := data.volunteers ++ [created] } file
      (success 201 "Volunteer created successfully" created) "Error creating volunteer"

/-- The object literal `newDonation` of `POST /api/donations`.  The double computed by
`parseFloat` and the date computed by `new Date().toISOString().split('T')[0]` are inputs. -/
def newDonation (parseFloat : JsVal → JsVal) (today : String) (body : Record) (data : Document) :
    Record :=
  [("id", generateId data.donations), ("donorName", getProp body "donorName"),
   ("amount", parseFloat (getProp body "amount")), ("type", getProp body "type"),
   ("purpose", getProp body "purpose"),
   ("date", if truthy (getProp body "date") then getProp body "date" else str today)]

/-- The handler `POST /api/donations`. -/
def createDonation (parseFloat : JsVal → JsVal) (today : String) (ok : Bool) (body : Record)
    (file : Store) : Outcome :=
  if !truthy (getProp body "donorName") || !truthy (getProp body "amount") ||
      !truthy (getProp body "type") || !truthy (getProp body "purpose") then
    { response := failure 400 "Missing required fields: donorName, amount, type, purpose"
      file := file
      written := Option.none }
  else
    let data := readDataFromFile file
    let created := newDonation parseFloat today body data
    persist ok { data with donations := data.donations ++ [created] } file
      (success 201 "Donation created successfully" created) "Error creating donation"

/-- The handlers `PUT /api/pets/:id`, `PUT /api/volunteers/:id`, `PUT /api/donations/:id`:
`data.xs[index] = { ...data.xs[index], ...updates, id: petId }`. -/
def updateById (c : Coll) (ok : Bool) (idParam : String) (updates : Record) (file : Store) :
    Outcome :=
  let petId := parseInt (str idParam)
  let data := readDataFromFile file
  match findIndexById (data.coll c) petId with
  | Option.none =>
    { response := failure 404 ⟨c.noun.data ++ " not found".data⟩, file := file,
      written := Option.none }
  | some petIndex =>
    let updated := setProp (spread ((data.coll c).getD petIndex []) updates) "id" petId
    let data := data.setColl c ((data.coll c).set petIndex updated)
    persist ok data file
      (success 200 ⟨c.noun.data ++ " updated successfully".data⟩ updated)
      ⟨"Error updating ".data ++ c.lower.data⟩

/-- The handlers `DELETE /api/pets/:id`, `DELETE /api/volunteers/:id`,
`DELETE /api/donations/:id`: `data.xs.splice(index, 1)[0]` is removed and returned. -/
def deleteById (c : Coll) (ok : Bool) (idParam : String) (file : Store) : Outcome :=
  let petId := parseInt (str idParam)
  let data := readDataFromFile file
  match findIndexById (data.coll c) petId with
  | Option.none =>
    { response := failure 404 ⟨c.noun.data ++ " not found".data⟩, file := file,
      written := Option.none }
  | some petIndex =>
    let deletedPet := (data.coll c).getD petIndex []
    let data := data.setColl c ((data.coll c).eraseIdx petIndex)
    persist ok data file
      (success 200 ⟨c.noun.data ++ " deleted successfully".data⟩ deletedPet)
      ⟨"Error deleting ".data ++ c.lower.data⟩

/-! ## Predicates used in the statements -/

/-- Every record of the collection has an integer `id`. -/
def IntegerIds (xs : List Record) : Prop :=
  ∀ r ∈ xs, ∃ n : Int, getProp r "id" = num n

/-- The integer `n` is one more than the greatest id of the collection, or `1` when the
collection is empty. -/
def IsNextId (xs : List Record) (n : Int) : Prop :=
  (xs = [] ∧ n = 1) ∨
  ∃ m : Int, (∃ r ∈ xs, getProp r "id" = num m) ∧
    (∀ r ∈ xs, ∀ k : Int, getProp r "id" = num k → k ≤ m) ∧ n = m + 1

/-- The integer `n` is the double nearest to one more than the greatest id of the collection,
or `1` when the collection is empty: what `Math.max(...) + 1` computes. -/
def IsRoundedNextId (xs : List Record) (n : Int) : Prop :=
  (xs = [] ∧ n = 1) ∨
  ∃ m : Int, (∃ r ∈ xs, getProp r "id" = num m) ∧
    (∀ r ∈ xs, ∀ k : Int, getProp r "id" = num k → k ≤ m) ∧ n = roundInt (m + 1)

/-- Every record of the collection has a safe integer as `id`: an integer strictly between
`-2^53` and `2^53`. -/
def SafeIntegerIds (xs : List Record) : Prop :=
  ∀ r ∈ xs, ∃ n : Int, getProp r "id" = num n ∧
    -9007199254740992 < n ∧ n < 9007199254740992

/-- The `id` of the record a response carries, `undefined` when it carries none. -/
def Outcome.dataId (o : Outcome) : JsVal :=
  match o.response.data with
  | Payload.record r => getProp r "id"
  | _ => undefined

/-- The outcome `o` of a create call on a collection that held `before`: it answers 201 with a
record whose `id` is the next id of `before`, and `after`, the collection in the file afterwards,
is `before` followed by that record (both as `JSON.stringify` writes them). -/
def CreatedWithNextId (before : List Record) (o : Outcome) (after : Option (List Record)) :
    Prop :=
  ∃ (r : Record) (n : Int), o.response.status = 201 ∧ o.response.data = Payload.record r ∧
    getProp r "id" = num n ∧ IsNextId before n ∧
    after = some (before.map jsonRecord ++ [jsonRecord r]) ∧
    getProp (jsonRecord r) "id" = num n

/-! ## Sample data used to instantiate the statements -/

/-- A pet payload with every required field, as a form sends it. -/
def rexPayload : Record :=
  [("name", str "Rex"), ("type", str "Dog"), ("breed", str "Mutt"), ("age", str "2"),
   ("status", str "Available"), ("location", str "Pune")]

/-- A volunteer payload with every required field. -/
def priyaPayload : Record :=
  [("name", str "Priya Sharma"), ("role", str "Caretaker"), ("experience", str "3"),
   ("location", str "Mumbai"), ("contact", str "priya@petcare.org")]

/-- A donation payload with every required field. -/
def raviPayload : Record :=
  [("donorName", str "Ravi Mehta"), ("amount", str "10000"), ("type", str "Medical"),
   ("purpose", str "Emergency medical fund")]

/-- A small document: two pets with ids 1 and 3, one volunteer, no donation. -/
def sampleDocument : Document :=
  { pets :=
      [[("id", num 1), ("name", str "Buddy"), ("type", str "Dog"), ("age", num 3),
        ("status", str "Available"), ("location", str "Mumbai")],
       [("id", num 3), ("name", str "Whiskers"), ("type", str "Cat"), ("age", num 0),
        ("status", str "Adopted"), ("location", str "Delhi")]]
    volunteers :=
      [[("id", num 2), ("name", str "Rahul Kumar"), ("role", str "Veterinarian"),
        ("experience", num 8), ("location", str "Delhi"), ("contact", str "rahul@petcare.org")]]
    donations := [] }

/-- A stand-in for `parseFloat` on the sample payloads, whose amounts are integers. -/
def sampleParseFloat (v : JsVal) : JsVal := parseInt v

/-- Three calls in a row on one collection: a create, the deletion of the created record by the
id the create answered, and a second create; every write succeeds. -/
structure CreateDeleteCreate where
  first : Outcome
  deleted : Outcome
  second : Outcome

/-- The three outcomes of create, delete of the created id, create. -/
def createDeleteCreate (create : Record → Store → Outcome) (c : Coll) (body1 body2 : Record)
    (file : Store) : CreateDeleteCreate :=
  let first := create body1 file
  let deleted := deleteById c true (toStr first.dataId) first.file
  { first := first, deleted := deleted, second := create body2 deleted.file }

/-- In the three calls the id is reused: both creates answer 201, the deletion answers 200 with
the record of the first create, and the second create is assigned the id of the deleted record. -/
def IdReused (s : CreateDeleteCreate) : Prop :=
  s.first.response.status = 201 ∧ s.deleted.response.status = 200 ∧
  s.deleted.dataId = s.first.dataId ∧ s.second.response.status = 201 ∧
  s.second.dataId = s.first.dataId

/-- The ids of a collection, in order. -/
def idsOf (xs : List Record) : List JsVal := xs.map (fun item => getProp item "id")

/-- The ids of the collection are integers and pairwise distinct. -/
def DistinctIntegerIds (xs : List Record) : Prop := IntegerIds xs ∧ (idsOf xs).Nodup

/-- An update payload that carries an `id`, the one of another sample pet. -/
def renumberPayload : Record := [("id", num 1), ("name", str "Tom")]

/-- Whether the record has a property named `key`, whatever its value. -/
def hasField (item : Record) (key : String) : Bool := item.any (fun kv => kv.1 == key)

/-- The filter contract in the words of the specification: for every pair of the criteria
other than the reserved key `_limit`, the record has a field `key` whose string form,
lower-cased, contains the lower-cased value. -/
def specMatches (item : Record) (criteria : List (String × String)) : Bool :=
  criteria.all (fun kv =>
    kv.1 == "_limit" ||
      (hasField item kv.1 &&
        includes (toLowerCase (toStr (getProp item kv.1))) (toLowerCase kv.2)))

/-- The records a list response carries, none when it carries no list. -/
def Outcome.records (o : Outcome) : List Record :=
  match o.response.data with
  | Payload.records rs => rs
  | _ => []

/-- A pet payload in which every required field is present and `age` is the number 0. -/
def zeroAgePayload : Record :=
  [("name", str "Pup"), ("type", str "Dog"), ("breed", str "Mutt"), ("age", num 0),
   ("status", str "Available"), ("location", str "Pune")]

/-- The same pet payload with `age` sent as the string "0". -/
def zeroAgeStringPayload : Record :=
  [("name", str "Pup"), ("type", str "Dog"), ("breed", str "Mutt"), ("age", str "0"),
   ("status", str "Available"), ("location", str "Pune")]

/-- A donation payload in which every required field is present and `amount` is the number 0. -/
def zeroAmountPayload : Record :=
  [("donorName", str "Anonymous"), ("amount", num 0), ("type", str "Food"),
   ("purpose", str "Monthly food supplies")]

/-- The required fields of a pet payload. -/
def petRequired : List String := ["name", "type", "breed", "age", "status", "location"]

/-- The required fields of a volunteer payload. -/
def volunteerRequired : List String := ["name", "role", "experience", "location", "contact"]

/-- The required fields of a donation payload. -/
def donationRequired : List String := ["donorName", "amount", "type", "purpose"]

/-! ## The statistics handler of `server_new.js` -/

/-- The `stats` object of `GET /api/stats`. -/
structure Stats where
  totalPets : Nat
  availablePets : Nat
  adoptedPets : Nat
  fosterPets : Nat
  totalVolunteers : Nat
  totalDonations : JsVal
  donationCount : Nat
  donationsByType : Record
  petsByType : Record
  volunteersByRole : Record
  deriving DecidableEq, Repr

/-- The count `items.filter(p => p[field] === value).length`. -/
def countEq (items : List Record) (field : String) (value : String) : Nat :=
  (items.filter (fun p => strictEq (getProp p field) (str value))).length

/-- The reduction `items.reduce((sum, d) => sum + d.amount, 0)`. -/
def sumAmounts (items : List Record) : JsVal :=
  items.foldl (fun sum d => jsAdd sum (getProp d "amount")) (num 0)

/-- The names of the function-valued members of `Object.prototype`. -/
def objectPrototypeMethods : List String :=
  ["toString", "toLocaleString", "valueOf", "hasOwnProperty", "isPrototypeOf",
   "propertyIsEnumerable", "__defineGetter__", "__defineSetter__", "__lookupGetter__",
   "__lookupSetter__"]

/-- The value of a member of `Object.prototype` read through an object that inherits from it:
the function `Object` for `constructor`, a built-in function for each method, and the prototype
itself for the accessor `__proto__`; `undefined` for every other name. -/
def objectPrototypeProp (key : String) : JsVal :=
  if key = "constructor" then obj "function Object() \x7b [native code] \x7d"
  else if key ∈ objectPrototypeMethods then
    obj ⟨"function ".data ++ key.data ++ "() \x7b [native code] \x7d".data⟩
  else if key = "__proto__" then obj "[object Object]"
  else undefined

/-- Property read `acc[key]` on an object created by `{}`: the own property if there is one,
else the member inherited from `Object.prototype`. -/
def lookupProp (acc : Record) (key : String) : JsVal :=
  if hasField acc key then getProp acc key else objectPrototypeProp key

/-- Assignment `acc[key] = v` of a primitive `v` on an object created by `{}`: it writes an own
property, except that the setter of `__proto__` ignores a primitive and leaves the object as it
was. -/
def assignProp (acc : Record) (key : String) (v : JsVal) : Record :=
  if key = "__proto__" then acc else setProp acc key v

/-- One step `acc[d[field]] = (acc[d[field]] || 0) + 1; return acc`.  The property key is the
string form of `d[field]`. -/
def countStep (field : String) (acc : Record) (d : Record) : Record :=
  let key := toStr (getProp d field)
  assignProp acc key
    (jsAdd (if truthy (lookupProp acc key) then lookupProp acc key else num 0) (num 1))

/-- The reduction `items.reduce((acc, d) => { acc[d[field]] = (acc[d[field]] || 0) + 1;
return acc; }, {})`. -/
def countBy (items : List Record) (field : String) : Record :=
  items.foldl (countStep field) []

/-- The object `stats` computed by `GET /api/stats` from the loaded data. -/
def computeStats (data : Document) : Stats :=
  { totalPets := data.pets.length
    availablePets := countEq data.pets "status" "Available"
    adoptedPets := countEq data.pets "status" "Adopted"
    fosterPets := countEq data.pets "status" "Foster Care"
    totalVolunteers := data.volunteers.length
    totalDonations := sumAmounts data.donations
    donationCount := data.donations.length
    donationsByType := countBy data.donations "type"
    petsByType := countBy data.pets "type"
    volunteersByRole := countBy data.volunteers "role" }

/-- The response of `GET /api/stats`: the status and the members `success` and `data`. -/
structure StatsResponse where
  status : Nat
  success : Bool
  data : Stats
  deriving DecidableEq, Repr

/-- The handler `GET /api/stats`.  Nothing in its body can throw on a document of three
record lists, so the answer is always the 200 response. -/
def getStats (file : Store) : StatsResponse :=
  let data := readDataFromFile file
  { status := 200, success := true, data := computeStats data }

/-! ## JSON values -/

/-- A value that `JSON.parse` can yield: not `undefined`, `NaN` or an infinity. -/
def isJsonValue : JsVal → Bool
  | undefined => false
  | nan => false
  | inf _ => false
  | _ => true

/-- A record as `JSON.parse` yields it: every value is a JSON value and no key occurs twice. -/
def isJsonRecord (r : Record) : Bool :=
  r.all (fun kv => isJsonValue kv.2) && decide (r.map (fun kv => kv.1)).Nodup

/-- A document as `JSON.parse` yields it. -/
def isJsonDocument (d : Document) : Bool :=
  d.pets.all isJsonRecord && d.volunteers.all isJsonRecord && d.donations.all isJsonRecord

/-! ## Predicates on the statistics -/

/-- Every donation has an integer `amount`. -/
def IntegerAmounts (ds : List Record) : Prop :=
  ∀ d ∈ ds, ∃ a : Int, getProp d "amount" = num a

/-- The amount of a donation as an integer, 0 when it is not one. -/
def amountOf (d : Record) : Int :=
  match getProp d "amount" with
  | num a => a
  | _ => 0

/-- The sum of the absolute values of the amounts: a bound on every partial sum. -/
def absTotal (ds : List Record) : Nat :=
  (ds.map (fun d => (amountOf d).natAbs)).sum

/-- No record has in `field` a value whose string form names a member of `Object.prototype`. -/
def plainKeys (items : List Record) (field : String) : Bool :=
  items.all (fun d => objectPrototypeProp (toStr (getProp d field)) == undefined)

/-- The number of records whose `field` has the string form `key`. -/
def occurrences (items : List Record) (field : String) (key : String) : Nat :=
  items.countP (fun d => toStr (getProp d field) == key)

/-- The map `m` counts the records of `items` by `field`: every value observed is mapped to the
number of records having it, no other key is present, and no key occurs twice. -/
def IsCountMap (m : Record) (items : List Record) (field : String) : Prop :=
  (∀ d ∈ items, getProp m (toStr (getProp d field)) =
    num (occurrences items field (toStr (getProp d field)))) ∧
  (∀ key, hasField m key = true ↔ ∃ d ∈ items, toStr (getProp d field) = key) ∧
  (m.map (fun kv => kv.1)).Nodup

/-- A pet payload whose type is the word "constructor". -/
def constructorPayload : Record :=
  [("name", str "Rex"), ("type", str "constructor"), ("breed", str "Mutt"), ("age", str "2"),
   ("status", str "Available"), ("location", str "Pune")]

/-- The document after `constructorPayload` was posted to the empty document. -/
def constructorDocument : Document :=
  { pets :=
      [[("id", num 1), ("name", str "Rex"), ("type", str "constructor"), ("breed", str "Mutt"),
        ("age", num 2), ("status", str "Available"), ("location", str "Pune"),
        ("description", str "")]]
    volunteers := []
    donations := [] }

/-- A document whose only pet has the type "__proto__". -/
def protoDocument : Document :=
  { pets :=
      [[("id", num 1), ("name", str "Rex"), ("type", str "__proto__"), ("breed", str "Mutt"),
        ("age", num 2), ("status", str "Available"), ("location", str "Pune"),
        ("description", str "")]]
    volunteers := []
    donations := [] }

/-- A document whose only pet has the id `2^53`, the first integer whose successor is not a
double. -/
def bigIdDocument : Document :=
  { pets :=
      [[("id", num 9007199254740992), ("name", str "Buddy"), ("type", str "Dog"),
        ("breed", str "Golden Retriever"), ("age", num 3), ("status", str "Available"),
        ("location", str "Mumbai"), ("description", str "")]]
    volunteers := []
    donations := [] }

/-- The pet payload of the scenario with `name` present but empty. -/
def emptyNamePayload : Record :=
  [("name", str ""), ("type", str "Dog"), ("breed", str "Mutt"), ("age", str "2"),
   ("status", str "Available"), ("location", str "Pune")]

/-! ## Lemmas on the built-in functions -/

theorem digitVal_lt_ten_iff (c : Char) : digitVal c < 10 ↔ 48 ≤ c.toNat ∧ c.toNat ≤ 57 := by
  unfold digitVal
  simp only
  split_ifs <;> omega

theorem digitVal_digitChar (d : Nat) (h : d < 10) :
    digitVal (Nat.digitChar d) = d := by
  interval_cases d <;> decide

theorem toDigitsCore_spec (fuel : Nat) : ∀ (n : Nat) (ds : List Char), n < fuel →
    (∀ c ∈ ds, digitVal c < 10) →
    (∀ c ∈ Nat.toDigitsCore 10 fuel n ds, digitVal c < 10) ∧
    Nat.toDigitsCore 10 fuel n ds ≠ [] ∧
    (Nat.toDigitsCore 10 fuel n ds).foldl (fun acc c => acc * 10 + digitVal c) 0 =
      ds.foldl (fun acc c => acc * 10 + digitVal c) n := by
  induction fuel with
  | zero => intro n ds h; omega
  | succ fuel ih =>
    intro n ds hn hds
    have hd : digitVal (Nat.digitChar (n % 10)) = n % 10 :=
      digitVal_digitChar _ (Nat.mod_lt _ (by decide))
    have hds' : ∀ c ∈ Nat.digitChar (n % 10) :: ds, digitVal c < 10 := by
      intro c hc
      rcases List.mem_cons.1 hc with rfl | hc
      · rw [hd]; exact Nat.mod_lt _ (by decide)
      · exact hds c hc
    unfold Nat.toDigitsCore
    simp only
    by_cases h0 : n / 10 = 0
    · rw [if_pos h0]
      refine ⟨hds', by simp, ?_⟩
      have : n % 10 = n := by omega
      rw [List.foldl_cons, Nat.zero_mul, Nat.zero_add, hd, this]
    · rw [if_neg h0]
      obtain ⟨h1, h2, h3⟩ := ih (n / 10) (Nat.digitChar (n % 10) :: ds) (by omega) hds'
      refine ⟨h1, h2, ?_⟩
      rw [h3, List.foldl_cons, hd]
      have : n / 10 * 10 + n % 10 = n := by omega
      rw [this]


theorem natToString_spec (k : Nat) :
    (∀ c ∈ natToString k, digitVal c < 10) ∧ natToString k ≠ [] ∧
    digitsValue 10 (natToString k) = k := by
  have h := toDigitsCore_spec (k + 1) k [] (by omega) (by simp)
  simpa [natToString, Nat.toDigits, digitsValue] using h

theorem parseIntChars_digits (ds : List Char) (hne : ds ≠ [])
    (hds : ∀ c ∈ ds, digitVal c < 10) :
    parseIntChars ds = num (digitsValue 10 ds) ∧
    parseIntChars ('-' :: ds) = num (-(digitsValue 10 ds : Int)) := by
  obtain ⟨c, cs, rfl⟩ := List.exists_cons_of_ne_nil hne
  have hc := (digitVal_lt_ten_iff c).1 (hds c (by simp))
  have hws : isWhiteSpace c = false := by
    simp only [isWhiteSpace, Bool.or_eq_false_iff, Bool.and_eq_false_iff, beq_eq_false_iff_ne,
      decide_eq_false_iff_not]
    omega
  have hminus : c ≠ '-' := by rintro rfl; revert hc; decide
  have hplus : c ≠ '+' := by rintro rfl; revert hc; decide
  have hx : ∀ d, digitVal d < 10 → d ≠ 'x' ∧ d ≠ 'X' := by
    intro d hd
    have := (digitVal_lt_ten_iff d).1 hd
    constructor <;> (rintro rfl; revert this; decide)
  have hhex : stripHexPrefix (c :: cs) = (10, c :: cs) := by
    cases cs with
    | nil => rfl
    | cons d ds =>
      have := hx d (hds d (by simp))
      simp [stripHexPrefix, this.1, this.2]
  have htake : (c :: cs).takeWhile (fun c => digitVal c < 10) = c :: cs := by
    rw [List.takeWhile_eq_self_iff]
    intro x hx
    simpa using hds x hx
  constructor
  · simp [parseIntChars, List.dropWhile, hws, stripSign, hminus, hplus, hhex, htake]
  · have hws2 : isWhiteSpace '-' = false := by decide
    simp [parseIntChars, List.dropWhile, hws2, stripSign, hhex, htake]

/-- `parseInt` reads back the decimal string of every integer. -/
theorem parseInt_numToString (n : Int) : parseInt (str (numToString n)) = num n := by
  unfold parseInt toStr numToString
  by_cases h : n < 0
  · obtain ⟨h1, h2, h3⟩ := natToString_spec n.natAbs
    rw [if_pos h]
    simp only
    rw [(parseIntChars_digits _ h2 h1).2, h3]
    congr 1
    omega
  · obtain ⟨h1, h2, h3⟩ := natToString_spec n.toNat
    rw [if_neg h]
    simp only
    rw [(parseIntChars_digits _ h2 h1).1, h3]
    congr 1
    omega

/-! ## Lemmas on `generateId` -/

theorem mathMax_fold_ints (xs : List Record) : ∀ a : Int, IntegerIds xs →
    ∃ m : Int,
      (xs.map (fun item => getProp item "id")).foldl
        (fun acc v => maxNum acc (toNumber v)) (num a) = num m ∧
      a ≤ m ∧ (m = a ∨ ∃ r ∈ xs, getProp r "id" = num m) ∧
      ∀ r ∈ xs, ∀ k : Int, getProp r "id" = num k → k ≤ m := by
  induction xs with
  | nil => intro a _; exact ⟨a, rfl, le_refl _, Or.inl rfl, by simp⟩
  | cons x xs ih =>
    intro a h
    obtain ⟨n, hn⟩ := h x (by simp)
    have hxs : IntegerIds xs := fun r hr => h r (List.mem_cons_of_mem _ hr)
    obtain ⟨m, hm, hle, hmem, hub⟩ := ih (max a n) hxs
    refine ⟨m, ?_, le_trans (le_max_left _ _) hle, ?_, ?_⟩
    · have hstep : maxNum (num a) (toNumber (num n)) = num (max a n) := rfl
      rw [List.map_cons, List.foldl_cons, hn, hstep]
      exact hm
    · rcases hmem with h1 | ⟨r, hr, hrm⟩
      · rcases max_choice a n with h2 | h2
        · left; rw [h1, h2]
        · right; exact ⟨x, by simp, by rw [hn, h1, h2]⟩
      · right; exact ⟨r, List.mem_cons_of_mem _ hr, hrm⟩
    · intro r hr k hk
      rcases List.mem_cons.1 hr with rfl | hr
      · rw [hn] at hk
        have : n = k := by injection hk
        rw [← this]
        exact le_trans (le_max_right _ _) hle
      · exact hub r hr k hk

/-- On a collection with integer ids `generateId` returns the next id. -/
theorem halvings_small (fuel m : Nat) (h : m < 9007199254740992) : halvings fuel m = 0 := by
  cases fuel with
  | zero => rfl
  | succ f => simp [halvings, h]

theorem roundNat_small (m : Nat) (h : m < 9007199254740992) : roundNat m = m := by
  unfold roundNat
  rw [halvings_small m m h]
  simp [Nat.mod_one]

theorem roundNat_two_pow_53 : roundNat 9007199254740992 = 9007199254740992 := by decide

/-- Rounding to a double is exact on the integers from `-2^53` to `2^53`. -/
theorem roundInt_exact (n : Int) (hlo : -9007199254740992 ≤ n) (hhi : n ≤ 9007199254740992) :
    roundInt n = n := by
  unfold roundInt
  by_cases hneg : n < 0
  · rw [if_pos hneg]
    by_cases hlt : n.natAbs < 9007199254740992
    · rw [roundNat_small _ hlt]; omega
    · have heq : n.natAbs = 9007199254740992 := by omega
      rw [heq, roundNat_two_pow_53]; omega
  · rw [if_neg hneg]
    by_cases hlt : n.toNat < 9007199254740992
    · rw [roundNat_small _ hlt]; omega
    · have heq : n.toNat = 9007199254740992 := by omega
      rw [heq, roundNat_two_pow_53]; omega

theorem jsAdd_num (a b : Int) : jsAdd (num a) (num b) = num (roundInt (a + b)) := by
  simp [jsAdd, isStringLike, toNumber, addNum]

/-- On a collection with integer ids `generateId` returns the double nearest to the greatest id
plus 1, or 1 when the collection is empty. -/
theorem generateId_round (xs : List Record) (h : IntegerIds xs) :
    ∃ n : Int, generateId xs = num n ∧ IsRoundedNextId xs n := by
  cases xs with
  | nil => exact ⟨1, rfl, Or.inl ⟨rfl, rfl⟩⟩
  | cons x xs =>
    obtain ⟨n, hn⟩ := h x (by simp)
    have hxs : IntegerIds xs := fun r hr => h r (List.mem_cons_of_mem _ hr)
    obtain ⟨m, hm, hle, hmem, hub⟩ := mathMax_fold_ints xs n hxs
    refine ⟨roundInt (m + 1), ?_, Or.inr ⟨m, ?_, ?_, rfl⟩⟩
    · have hstep : maxNum (inf true) (toNumber (num n)) = num n := rfl
      have hlen : (x :: xs).length > 0 := by simp
      rw [generateId, if_pos hlen, mathMax, List.map_cons, List.foldl_cons, hn, hstep, hm,
        jsAdd_num]
    · rcases hmem with h1 | ⟨r, hr, hrm⟩
      · exact ⟨x, by simp, by rw [hn, h1]⟩
      · exact ⟨r, List.mem_cons_of_mem _ hr, hrm⟩
    · intro r hr k hk
      rcases List.mem_cons.1 hr with rfl | hr
      · rw [hn] at hk
        have : n = k := by injection hk
        rw [← this]; exact hle
      · exact hub r hr k hk

theorem integerIds_of_safe (xs : List Record) (h : SafeIntegerIds xs) : IntegerIds xs := by
  intro r hr
  obtain ⟨n, hn, _⟩ := h r hr
  exact ⟨n, hn⟩

/-- On a collection whose ids are safe integers `generateId` returns the next id exactly. -/
theorem generateId_spec (xs : List Record) (h : SafeIntegerIds xs) :
    ∃ n : Int, generateId xs = num n ∧ IsNextId xs n := by
  obtain ⟨n, hn, hround⟩ := generateId_round xs (integerIds_of_safe xs h)
  refine ⟨n, hn, ?_⟩
  rcases hround with hnil | ⟨m, ⟨r, hr, hrm⟩, hub, hnm⟩
  · exact Or.inl hnil
  · obtain ⟨k, hk, hlo, hhi⟩ := h r hr
    have hkm : k = m := by
      rw [hrm] at hk
      injection hk with hk
      exact hk.symm
    refine Or.inr ⟨m, ⟨r, hr, hrm⟩, hub, ?_⟩
    rw [hnm, roundInt_exact (m + 1) (by omega) (by omega)]

/-! ## Lemmas on records and on the create handlers -/

theorem getProp_jsonRecord_num (r : Record) (key : String) (n : Int)
    (h : getProp r key = num n) : getProp (jsonRecord r) key = num n := by
  induction r with
  | nil => simp [getProp] at h
  | cons kv rest ih =>
    obtain ⟨k, v⟩ := kv
    by_cases hk : k = key
    · have hv : v = num n := by simpa [getProp, hk] using h
      subst hv
      simp [jsonRecord, getProp, hk, jsonValue]
    · have hrest : getProp rest key = num n := by simpa [getProp, hk] using h
      have ih' := ih hrest
      by_cases hu : v = undefined
      · simpa [jsonRecord, hu] using ih'
      · simpa [jsonRecord, hu, getProp, hk] using ih'

theorem createPet_valid (ok : Bool) (body : Record) (file : Store)
    (h : (createPet ok body file).response.status ≠ 400) :
    createPet ok body file =
      persist ok
        { readDataFromFile file with
          pets := (readDataFromFile file).pets ++ [newPet body (readDataFromFile file)] }
        file (success 201 "Pet created successfully" (newPet body (readDataFromFile file)))
        "Error creating pet" := by
  unfold createPet at h ⊢
  split
  · rename_i hc
    rw [if_pos hc] at h
    exact absurd rfl h
  · rfl

theorem createVolunteer_valid (ok : Bool) (body : Record) (file : Store)
    (h : (createVolunteer ok body file).response.status ≠ 400) :
    createVolunteer ok body file =
      persist ok
        { readDataFromFile file with
          volunteers :=
            (readDataFromFile file).volunteers ++ [newVolunteer body (readDataFromFile file)] }
        file
        (success 201 "Volunteer created successfully" (newVolunteer body (readDataFromFile file)))
        "Error creating volunteer" := by
  unfold createVolunteer at h ⊢
  split
  · rename_i hc
    rw [if_pos hc] at h
    exact absurd rfl h
  · rfl

theorem createDonation_valid (parseFloat : JsVal → JsVal) (today : String) (ok : Bool)
    (body : Record) (file : Store)
    (h : (createDonation parseFloat today ok body file).response.status ≠ 400) :
    createDonation parseFloat today ok body file =
      persist ok
        { readDataFromFile file with
          donations := (readDataFromFile file).donations ++
            [newDonation parseFloat today body (readDataFromFile file)] }
        file
        (success 201 "Donation created successfully"
          (newDonation parseFloat today body (readDataFromFile file)))
        "Error creating donation" := by
  unfold createDonation at h ⊢
  split
  · rename_i hc
    rw [if_pos hc] at h
    exact absurd rfl h
  · rfl

theorem persist_true (data : Document) (file : Store) (r : Response) (msg : String) :
    persist true data file r msg =
      { response := r, file := some (jsonDocument data), written := some data } := rfl

theorem persist_false (data : Document) (file : Store) (r : Response) (msg : String) :
    persist false data file r msg =
      { response := saveFailure msg, file := file, written := some data } := rfl

/-- A created record whose `id` is the next id gives `CreatedWithNextId`. -/
theorem createdWithNextId_intro (before : List Record) (rest : Document) (r : Record)
    (message : String) (hids : SafeIntegerIds before)
    (hid : getProp r "id" = generateId before) (after : Document → List Record)
    (hafter : after (jsonDocument rest) = before.map jsonRecord ++ [jsonRecord r]) :
    CreatedWithNextId before
      { response := success 201 message r, file := some (jsonDocument rest), written := some rest }
      (Option.map after (some (jsonDocument rest))) := by
  obtain ⟨n, hn, hnext⟩ := generateId_spec before hids
  refine ⟨r, n, rfl, rfl, by rw [hid, hn], hnext, ?_, ?_⟩
  · rw [Option.map_some', hafter]
  · exact getProp_jsonRecord_num r "id" n (by rw [hid, hn])

/-- Below `2^53` the create handlers do assign the next id.  For each of the three collections,
when the ids present are safe integers, a create call whose payload passes the required-field
validation (the answer is not 400) and whose write succeeds answers 201 with a record whose id
is 1 plus the greatest id present in the collection before the call, or 1 when the collection
was empty; the record is stored with that id at the end of the collection. -/
theorem create_assigns_next_id_of_safe (parseFloat : JsVal → JsVal) (today : String)
    (body : Record) (file : Store) :
    (SafeIntegerIds (readDataFromFile file).pets →
      (createPet true body file).response.status ≠ 400 →
      CreatedWithNextId (readDataFromFile file).pets (createPet true body file)
        ((createPet true body file).file.map Document.pets)) ∧
    (SafeIntegerIds (readDataFromFile file).volunteers →
      (createVolunteer true body file).response.status ≠ 400 →
      CreatedWithNextId (readDataFromFile file).volunteers (createVolunteer true body file)
        ((createVolunteer true body file).file.map Document.volunteers)) ∧
    (SafeIntegerIds (readDataFromFile file).donations →
      (createDonation parseFloat today true body file).response.status ≠ 400 →
      CreatedWithNextId (readDataFromFile file).donations
        (createDonation parseFloat today true body file)
        ((createDonation parseFloat today true body file).file.map Document.donations)) := by
  refine ⟨?_, ?_, ?_⟩
  · intro hids hst
    rw [createPet_valid true body file hst, persist_true]
    refine createdWithNextId_intro _ _ _ _ hids ?_ Document.pets ?_
    · simp [newPet, getProp]
    · simp [jsonDocument]
  · intro hids hst
    rw [createVolunteer_valid true body file hst, persist_true]
    refine createdWithNextId_intro _ _ _ _ hids ?_ Document.volunteers ?_
    · simp [newVolunteer, getProp]
    · simp [jsonDocument]
  · intro hids hst
    rw [createDonation_valid parseFloat today true body file hst, persist_true]
    refine createdWithNextId_intro _ _ _ _ hids ?_ Document.donations ?_
    · simp [newDonation, getProp]
    · simp [jsonDocument]

theorem integerIds_sample :
    IntegerIds sampleDocument.pets ∧ IntegerIds sampleDocument.volunteers ∧
    IntegerIds sampleDocument.donations := by
  refine ⟨?_, ?_, ?_⟩
  · intro r hr
    simp only [sampleDocument, List.mem_cons, List.mem_singleton, List.not_mem_nil,
      or_false] at hr
    rcases hr with rfl | rfl
    · exact ⟨1, rfl⟩
    · exact ⟨3, rfl⟩
  · intro r hr
    simp only [sampleDocument, List.mem_singleton] at hr
    subst hr
    exact ⟨2, rfl⟩
  · intro r hr
    simp [sampleDocument] at hr

theorem safeIntegerIds_sample :
    SafeIntegerIds sampleDocument.pets ∧ SafeIntegerIds sampleDocument.volunteers ∧
    SafeIntegerIds sampleDocument.donations := by
  refine ⟨?_, ?_, ?_⟩
  · intro r hr
    simp only [sampleDocument, List.mem_cons, List.mem_singleton, List.not_mem_nil,
      or_false] at hr
    rcases hr with rfl | rfl
    · exact ⟨1, rfl, by decide, by decide⟩
    · exact ⟨3, rfl, by decide, by decide⟩
  · intro r hr
    simp only [sampleDocument, List.mem_singleton] at hr
    subst hr
    exact ⟨2, rfl, by decide, by decide⟩
  · intro r hr
    simp [sampleDocument] at hr

/-- Claim C1 on the code.  With a single pet of id `2^53` in the file (an integer id), a valid
create whose write succeeds answers 201 with id `2^53` again, not `2^53 + 1`: `generateId` adds
1 in double arithmetic and `2^53 + 1` rounds back to `2^53`. -/
theorem create_repeats_id_at_two_pow_53 :
    idsOf bigIdDocument.pets = [num 9007199254740992] ∧
    generateId bigIdDocument.pets = num 9007199254740992 ∧
    (createPet true rexPayload (some bigIdDocument)).response.status = 201 ∧
    (createPet true rexPayload (some bigIdDocument)).dataId = num 9007199254740992 ∧
    ¬ ((createPet true rexPayload (some bigIdDocument)).dataId =
      num (9007199254740992 + 1)) := by
  decide

/-! ## Lemmas on lookup by id, update and delete -/

theorem coll_jsonDocument (d : Document) (c : Coll) :
    (jsonDocument d).coll c = (d.coll c).map jsonRecord := by
  cases c <;> rfl

theorem coll_setColl (d : Document) (c : Coll) (xs : List Record) :
    (d.setColl c xs).coll c = xs := by
  cases c <;> rfl

theorem strictEq_num (a b : Int) : strictEq (num a) (num b) = decide (a = b) := by
  by_cases h : a = b <;> simp [strictEq, h]

theorem integerIds_map_jsonRecord (xs : List Record) (h : IntegerIds xs) :
    IntegerIds (xs.map jsonRecord) := by
  intro r hr
  obtain ⟨x, hx, rfl⟩ := List.mem_map.1 hr
  obtain ⟨n, hn⟩ := h x hx
  exact ⟨n, getProp_jsonRecord_num x "id" n hn⟩

theorem map_id_jsonRecord (xs : List Record) (h : IntegerIds xs) :
    (xs.map jsonRecord).map (fun item => getProp item "id") =
      xs.map (fun item => getProp item "id") := by
  rw [List.map_map]
  apply List.map_congr_left
  intro x hx
  obtain ⟨n, hn⟩ := h x hx
  simp only [Function.comp_apply]
  rw [hn, getProp_jsonRecord_num x "id" n hn]

theorem generateId_congr (xs ys : List Record)
    (h : xs.map (fun item => getProp item "id") = ys.map (fun item => getProp item "id")) :
    generateId xs = generateId ys := by
  have hlen : xs.length = ys.length := by
    simpa using congrArg List.length h
  unfold generateId
  rw [h, hlen]

theorem generateId_map_jsonRecord (xs : List Record) (h : IntegerIds xs) :
    generateId (xs.map jsonRecord) = generateId xs :=
  generateId_congr _ _ (map_id_jsonRecord xs h)

theorem eq_of_strictEq (a b : JsVal) (h : strictEq a b = true) : a = b := by
  cases a <;> cases b <;> simp_all [strictEq]

theorem strictEq_num_iff (v : JsVal) (i : Int) : strictEq v (num i) = true ↔ v = num i := by
  constructor
  · exact eq_of_strictEq v (num i)
  · rintro rfl
    rw [strictEq_num]; simp

theorem strictEq_num_false_iff (v : JsVal) (i : Int) :
    strictEq v (num i) = false ↔ v ≠ num i := by
  rw [Ne, ← strictEq_num_iff]; simp

theorem findById_none_iff (xs : List Record) (i : Int) :
    findById xs (num i) = Option.none ↔ ∀ p ∈ xs, getProp p "id" ≠ num i := by
  unfold findById
  rw [List.find?_eq_none]
  constructor
  · intro h p hp
    exact (strictEq_num_false_iff _ _).1 (by simpa using h p hp)
  · intro h p hp
    simpa using (strictEq_num_false_iff _ _).2 (h p hp)

theorem findById_some (xs : List Record) (i : Int) : ∀ p : Record,
    findById xs (num i) = some p →
    ∃ pre post, xs = pre ++ p :: post ∧ (∀ q ∈ pre, getProp q "id" ≠ num i) ∧
      getProp p "id" = num i := by
  induction xs with
  | nil => intro p h; simp [findById] at h
  | cons x xs ih =>
    intro p h
    unfold findById at h
    rw [List.find?_cons] at h
    by_cases hx : strictEq (getProp x "id") (num i) = true
    · rw [hx] at h
      have hpx : x = p := by simpa using h
      subst hpx
      exact ⟨[], xs, rfl, by simp, (strictEq_num_iff _ _).1 hx⟩
    · have hx' : strictEq (getProp x "id") (num i) = false := by simpa using hx
      rw [hx'] at h
      obtain ⟨pre, post, hxs, hpre, hp⟩ := ih p h
      refine ⟨x :: pre, post, by rw [hxs]; rfl, ?_, hp⟩
      intro q hq
      rcases List.mem_cons.1 hq with rfl | hq
      · exact (strictEq_num_false_iff _ _).1 hx'
      · exact hpre q hq

theorem exists_first_with_id (xs : List Record) (i : Int)
    (h : ∃ r ∈ xs, getProp r "id" = num i) :
    ∃ pre p post, xs = pre ++ p :: post ∧ (∀ q ∈ pre, getProp q "id" ≠ num i) ∧
      getProp p "id" = num i := by
  cases hfind : findById xs (num i) with
  | none =>
    obtain ⟨r, hr, hri⟩ := h
    exact absurd hri ((findById_none_iff xs i).1 hfind r hr)
  | some p =>
    obtain ⟨pre, post, h1, h2, h3⟩ := findById_some xs i p hfind
    exact ⟨pre, p, post, h1, h2, h3⟩

theorem findIndexById_first (pre : List Record) (p : Record) (post : List Record) (i : Int)
    (hpre : ∀ q ∈ pre, getProp q "id" ≠ num i) (hp : getProp p "id" = num i) :
    findIndexById (pre ++ p :: post) (num i) = some pre.length := by
  induction pre with
  | nil =>
    have : strictEq (getProp p "id") (num i) = true := (strictEq_num_iff _ _).2 hp
    simp [findIndexById, this]
  | cons x pre ih =>
    have hx : strictEq (getProp x "id") (num i) = false :=
      (strictEq_num_false_iff _ _).2 (hpre x (by simp))
    have ih' := ih (fun q hq => hpre q (List.mem_cons_of_mem _ hq))
    simp [findIndexById, hx, ih']

theorem set_first (pre : List Record) (p m : Record) (post : List Record) :
    (pre ++ p :: post).set pre.length m = pre ++ m :: post := by
  induction pre with
  | nil => rfl
  | cons x pre ih => simp [ih]

theorem getD_first (pre : List Record) (p : Record) (post : List Record) :
    (pre ++ p :: post).getD pre.length [] = p := by
  induction pre with
  | nil => rfl
  | cons x pre ih => simpa using ih

theorem eraseIdx_first (pre : List Record) (p : Record) (post : List Record) :
    (pre ++ p :: post).eraseIdx pre.length = pre ++ post := by
  induction pre with
  | nil => rfl
  | cons x pre ih => simp [ih]

theorem findIndexById_append_last (xs : List Record) (r : Record) (v : JsVal)
    (hxs : ∀ x ∈ xs, strictEq (getProp x "id") v = false)
    (hr : strictEq (getProp r "id") v = true) :
    findIndexById (xs ++ [r]) v = some xs.length := by
  induction xs with
  | nil => simp [findIndexById, hr]
  | cons x xs ih =>
    have hx := hxs x (by simp)
    have ih' := ih (fun y hy => hxs y (List.mem_cons_of_mem _ hy))
    simp [findIndexById, hx, ih']

theorem mem_without_first {α : Type} (is ps qs : List α) (a : α)
    (h : is ++ [a] = ps ++ a :: qs) : ∀ v, v ∈ ps ++ qs ↔ v ∈ is := by
  rcases List.eq_nil_or_concat qs with rfl | ⟨qs', b, hq⟩
  · have hps : is = ps := List.append_inj_left' h rfl
    intro v
    rw [hps, List.append_nil]
  · rw [List.concat_eq_append] at hq
    subst hq
    have h' : is ++ [a] = (ps ++ a :: qs') ++ [b] := by
      rw [h]; simp
    have his : is = ps ++ a :: qs' := List.append_inj_left' h' rfl
    have hab : [a] = [b] := List.append_inj_right' h' rfl
    have hb : b = a := by
      injection hab with hab _
      exact hab.symm
    intro v
    rw [his, hb]
    simp only [List.mem_append, List.mem_cons, List.mem_singleton, List.not_mem_nil, or_false]
    tauto

/-- On collections with integer ids, `generateId` depends only on which ids are present. -/
theorem generateId_eq_of_mem_iff (xs ys : List Record) (hx : IntegerIds xs)
    (hy : IntegerIds ys) (h : ∀ v, v ∈ idsOf xs ↔ v ∈ idsOf ys) :
    generateId xs = generateId ys := by
  obtain ⟨n, hn, hr⟩ := generateId_round xs hx
  obtain ⟨n', hn', hr'⟩ := generateId_round ys hy
  have hmem : ∀ (zs : List Record) (r : Record), r ∈ zs → getProp r "id" ∈ idsOf zs :=
    fun zs r hr => List.mem_map.2 ⟨r, hr, rfl⟩
  rw [hn, hn']
  congr 1
  rcases hr with ⟨hnil, h1⟩ | ⟨m, ⟨r, hrx, hrm⟩, hub, hnm⟩
  · rcases hr' with ⟨_, h1'⟩ | ⟨m', ⟨r', hry, _⟩, _, _⟩
    · rw [h1, h1']
    · have := (h _).2 (hmem ys r' hry)
      rw [hnil] at this
      simp [idsOf] at this
  · rcases hr' with ⟨hnil', _⟩ | ⟨m', ⟨r', hry, hrm'⟩, hub', hnm'⟩
    · have := (h _).1 (hmem xs r hrx)
      rw [hnil'] at this
      simp [idsOf] at this
    · have h1 : num m ∈ idsOf ys := by rw [← hrm]; exact (h _).1 (hmem xs r hrx)
      have h2 : num m' ∈ idsOf xs := by rw [← hrm']; exact (h _).2 (hmem ys r' hry)
      obtain ⟨y, hy1, hy2⟩ := List.mem_map.1 h1
      obtain ⟨x, hx1, hx2⟩ := List.mem_map.1 h2
      have hle : m ≤ m' := hub' y hy1 m hy2
      have hge : m' ≤ m := hub x hx1 m' hx2
      rw [hnm, hnm', le_antisymm hle hge]

/-- After a record carrying `generateId` is appended and the first record with that id is
deleted, the collection has the same ids as before, so `generateId` returns the same id
again. -/
theorem delete_created_core (c : Coll) (data : Document) (r : Record)
    (hids : IntegerIds (data.coll c)) (hid : getProp r "id" = generateId (data.coll c)) :
    ∃ (d2 : Document) (p : Record),
      deleteById c true (toStr (getProp r "id"))
          (some (jsonDocument (data.setColl c (data.coll c ++ [r])))) =
        { response := success 200 ⟨c.noun.data ++ " deleted successfully".data⟩ p
          file := some (jsonDocument d2)
          written := some d2 } ∧
      getProp p "id" = getProp r "id" ∧
      generateId ((jsonDocument d2).coll c) = generateId (data.coll c) := by
  obtain ⟨n, hn, _⟩ := generateId_round (data.coll c) hids
  have hrn : getProp r "id" = num n := by rw [hid, hn]
  have hjn : getProp (jsonRecord r) "id" = num n := getProp_jsonRecord_num r "id" n hrn
  have hcoll : (jsonDocument (data.setColl c (data.coll c ++ [r]))).coll c =
      (data.coll c).map jsonRecord ++ [jsonRecord r] := by
    rw [coll_jsonDocument, coll_setColl]; simp
  obtain ⟨pre, p, post, hdec, hpre, hp⟩ :=
    exists_first_with_id ((data.coll c).map jsonRecord ++ [jsonRecord r]) n
      ⟨jsonRecord r, by simp, hjn⟩
  have hidx := findIndexById_first pre p post n hpre hp
  have hints : IntegerIds (pre ++ p :: post) := by
    rw [← hdec]
    intro x hx
    rcases List.mem_append.1 hx with hx | hx
    · exact integerIds_map_jsonRecord _ hids x hx
    · rw [List.mem_singleton.1 hx]; exact ⟨n, hjn⟩
  have hints' : IntegerIds (pre ++ post) := by
    intro x hx
    apply hints x
    rcases List.mem_append.1 hx with hx | hx
    · exact List.mem_append_left _ hx
    · exact List.mem_append_right _ (List.mem_cons_of_mem _ hx)
  have hidlist : idsOf (data.coll c) ++ [num n] = idsOf pre ++ num n :: idsOf post := by
    have := congrArg idsOf hdec
    simp only [idsOf, List.map_append, List.map_cons, List.map_nil] at this ⊢
    rw [map_id_jsonRecord _ hids, hjn, hp] at this
    exact this
  refine ⟨(jsonDocument (data.setColl c (data.coll c ++ [r]))).setColl c (pre ++ post), p,
    ?_, by rw [hp, hrn], ?_⟩
  · rw [hrn]
    show deleteById c true (numToString n) _ = _
    unfold deleteById
    simp only [parseInt_numToString, readDataFromFile, hcoll, hdec, hidx, persist_true,
      getD_first, eraseIdx_first]
  · rw [coll_jsonDocument, coll_setColl, generateId_map_jsonRecord _ hints']
    apply generateId_eq_of_mem_iff _ _ hints' hids
    intro v
    have := mem_without_first (idsOf (data.coll c)) (idsOf pre) (idsOf post) (num n) hidlist v
    simpa [idsOf] using this

/-- The id is reused by any create handler that appends a record carrying `generateId`. -/
theorem idReused_of_create (c : Coll) (create : Record → Store → Outcome)
    (mk : Record → Document → Record) (message : String)
    (hvalid : ∀ body file, (create body file).response.status ≠ 400 →
      create body file =
        { response := success 201 message (mk body (readDataFromFile file))
          file := some (jsonDocument ((readDataFromFile file).setColl c
            ((readDataFromFile file).coll c ++ [mk body (readDataFromFile file)])))
          written := some ((readDataFromFile file).setColl c
            ((readDataFromFile file).coll c ++ [mk body (readDataFromFile file)])) })
    (hmk : ∀ body data, getProp (mk body data) "id" = generateId (data.coll c))
    (body1 body2 : Record) (file : Store)
    (hids : IntegerIds ((readDataFromFile file).coll c))
    (h1 : (createDeleteCreate create c body1 body2 file).first.response.status ≠ 400)
    (h3 : (createDeleteCreate create c body1 body2 file).second.response.status ≠ 400) :
    IdReused (createDeleteCreate create c body1 body2 file) := by
  unfold IdReused
  unfold createDeleteCreate at h1 h3 ⊢
  simp only at h1 h3 ⊢
  have e1 := hvalid body1 file h1
  obtain ⟨d2, p, hdel, hjson, hgen⟩ := delete_created_core c (readDataFromFile file)
    (mk body1 (readDataFromFile file)) hids (hmk _ _)
  have hid1 : (create body1 file).dataId = getProp (mk body1 (readDataFromFile file)) "id" := by
    rw [e1]; rfl
  have hf1 : (create body1 file).file = some (jsonDocument ((readDataFromFile file).setColl c
      ((readDataFromFile file).coll c ++ [mk body1 (readDataFromFile file)]))) := by
    rw [e1]
  rw [hid1, hf1, hdel] at h3 ⊢
  simp only at h3 ⊢
  have e3 := hvalid body2 (some (jsonDocument d2)) h3
  refine ⟨by rw [e1]; rfl, rfl, ?_, by rw [e3]; rfl, ?_⟩
  · simpa [Outcome.dataId, success] using hjson
  · rw [e3]
    show getProp (mk body2 (jsonDocument d2)) "id" = _
    rw [hmk, hmk, hgen]

/-- Claim C2, as the code behaves.  In each collection with integer ids, when a record is
created, that record is deleted by its id, and another record is created (the payloads passing
validation and every write succeeding), the deletion answers 200 with the created record and
the second creation is assigned the same id as the deleted record: the id is reused. -/
theorem id_reused_after_delete (parseFloat : JsVal → JsVal) (today : String)
    (body1 body2 : Record) (file : Store) :
    (IntegerIds (readDataFromFile file).pets →
      (createDeleteCreate (createPet true) Coll.pets body1 body2 file).first.response.status
        ≠ 400 →
      (createDeleteCreate (createPet true) Coll.pets body1 body2 file).second.response.status
        ≠ 400 →
      IdReused (createDeleteCreate (createPet true) Coll.pets body1 body2 file)) ∧
    (IntegerIds (readDataFromFile file).volunteers →
      (createDeleteCreate (createVolunteer true) Coll.volunteers body1 body2
        file).first.response.status ≠ 400 →
      (createDeleteCreate (createVolunteer true) Coll.volunteers body1 body2
        file).second.response.status ≠ 400 →
      IdReused (createDeleteCreate (createVolunteer true) Coll.volunteers body1 body2 file)) ∧
    (IntegerIds (readDataFromFile file).donations →
      (createDeleteCreate (createDonation parseFloat today true) Coll.donations body1 body2
        file).first.response.status ≠ 400 →
      (createDeleteCreate (createDonation parseFloat today true) Coll.donations body1 body2
        file).second.response.status ≠ 400 →
      IdReused
        (createDeleteCreate (createDonation parseFloat today true) Coll.donations body1 body2
          file)) := by
  refine ⟨?_, ?_, ?_⟩
  · exact idReused_of_create Coll.pets (createPet true) newPet "Pet created successfully"
      (fun body f h => by rw [createPet_valid true body f h, persist_true]; rfl)
      (fun body data => by simp [newPet, getProp, Document.coll]) body1 body2 file
  · exact idReused_of_create Coll.volunteers (createVolunteer true) newVolunteer
      "Volunteer created successfully"
      (fun body f h => by rw [createVolunteer_valid true body f h, persist_true]; rfl)
      (fun body data => by simp [newVolunteer, getProp, Document.coll]) body1 body2 file
  · exact idReused_of_create Coll.donations (createDonation parseFloat today true)
      (newDonation parseFloat today) "Donation created successfully"
      (fun body f h => by
        rw [createDonation_valid parseFloat today true body f h, persist_true]; rfl)
      (fun body data => by simp [newDonation, getProp, Document.coll]) body1 body2 file

/-- Claim C2 at the sample document: in each collection the id of the deleted record comes
back. -/
theorem id_reused_after_delete_witness :
    IdReused (createDeleteCreate (createPet true) Coll.pets rexPayload rexPayload
      (some sampleDocument)) ∧
    IdReused (createDeleteCreate (createVolunteer true) Coll.volunteers priyaPayload
      priyaPayload (some sampleDocument)) ∧
    IdReused (createDeleteCreate (createDonation sampleParseFloat "2024-02-05" true)
      Coll.donations raviPayload raviPayload (some sampleDocument)) :=
  ⟨(id_reused_after_delete sampleParseFloat "2024-02-05" rexPayload rexPayload
      (some sampleDocument)).1 integerIds_sample.1 (by decide) (by decide),
    (id_reused_after_delete sampleParseFloat "2024-02-05" priyaPayload priyaPayload
      (some sampleDocument)).2.1 integerIds_sample.2.1 (by decide) (by decide),
    (id_reused_after_delete sampleParseFloat "2024-02-05" raviPayload raviPayload
      (some sampleDocument)).2.2 integerIds_sample.2.2 (by decide) (by decide)⟩

/-- Claim C2 refuted on the empty store: a pet is created with id 1 and deleted, and the next
pet created gets id 1 again, so the second id is not different from the deleted one. -/
theorem id_reused_counterexample :
    (createDeleteCreate (createPet true) Coll.pets rexPayload rexPayload none).first.dataId
      = num 1 ∧
    (createDeleteCreate (createPet true) Coll.pets rexPayload rexPayload
      none).deleted.response.status = 200 ∧
    (createDeleteCreate (createPet true) Coll.pets rexPayload rexPayload none).deleted.dataId
      = num 1 ∧
    ¬ ((createDeleteCreate (createPet true) Coll.pets rexPayload rexPayload none).second.dataId
      ≠ (createDeleteCreate (createPet true) Coll.pets rexPayload rexPayload
        none).deleted.dataId) := by
  decide

/-! ## Id uniqueness -/

theorem distinctIntegerIds_congr (xs ys : List Record) (h : idsOf ys = idsOf xs)
    (hx : DistinctIntegerIds xs) : DistinctIntegerIds ys := by
  refine ⟨?_, by rw [h]; exact hx.2⟩
  intro r hr
  have hmem : getProp r "id" ∈ idsOf xs := by
    rw [← h]; exact List.mem_map.2 ⟨r, hr, rfl⟩
  obtain ⟨x, hx', hxr⟩ := List.mem_map.1 hmem
  obtain ⟨n, hn⟩ := hx.1 x hx'
  exact ⟨n, by rw [← hxr]; exact hn⟩

theorem distinctIntegerIds_map_jsonRecord (xs : List Record) (h : DistinctIntegerIds xs) :
    DistinctIntegerIds (xs.map jsonRecord) :=
  distinctIntegerIds_congr xs _ (map_id_jsonRecord xs h.1) h

theorem distinctIntegerIds_append_next (xs : List Record) (r : Record)
    (hsafe : SafeIntegerIds xs) (h : DistinctIntegerIds xs)
    (hid : getProp r "id" = generateId xs) :
    DistinctIntegerIds (xs ++ [r]) := by
  obtain ⟨n, hn, hnext⟩ := generateId_spec xs hsafe
  have hrn : getProp r "id" = num n := by rw [hid, hn]
  refine ⟨?_, ?_⟩
  · intro x hx
    rcases List.mem_append.1 hx with hx | hx
    · exact h.1 x hx
    · rw [List.mem_singleton.1 hx]; exact ⟨n, hrn⟩
  · unfold idsOf
    rw [List.map_append, List.nodup_append]
    refine ⟨h.2, by simp, ?_⟩
    intro v hv hv'
    simp only [List.map_cons, List.map_nil, List.mem_singleton] at hv'
    obtain ⟨x, hx, hxv⟩ := List.mem_map.1 hv
    rw [hv', hrn] at hxv
    rcases hnext with ⟨hnil, _⟩ | ⟨m, _, hub, hnm⟩
    · rw [hnil] at hx; simp at hx
    · have := hub x hx n hxv
      omega

theorem getProp_setProp_self (r : Record) (key : String) (v : JsVal) :
    getProp (setProp r key v) key = v := by
  induction r with
  | nil => simp [setProp, getProp]
  | cons kv rest ih =>
    obtain ⟨k, w⟩ := kv
    by_cases hk : k = key
    · simp [setProp, getProp, hk]
    · simp [setProp, getProp, hk, ih]

theorem findIndexById_some (xs : List Record) (v : JsVal) : ∀ i : Nat,
    findIndexById xs v = some i →
    i < xs.length ∧ strictEq (getProp (xs.getD i []) "id") v = true := by
  induction xs with
  | nil => intro i h; simp [findIndexById] at h
  | cons x xs ih =>
    intro i h
    unfold findIndexById at h
    by_cases hx : strictEq (getProp x "id") v = true
    · rw [if_pos hx] at h
      have : i = 0 := by injection h with h; exact h.symm
      subst this
      exact ⟨by simp, by simpa using hx⟩
    · rw [if_neg hx] at h
      cases hrec : findIndexById xs v with
      | none => rw [hrec] at h; simp at h
      | some j =>
        rw [hrec] at h
        have : i = j + 1 := by injection h with h; exact h.symm
        subst this
        obtain ⟨h1, h2⟩ := ih j hrec
        exact ⟨by simpa using h1, by simpa using h2⟩

theorem idsOf_set_same (xs : List Record) (i : Nat) (r : Record)
    (h : getProp r "id" = getProp (xs.getD i []) "id") (hi : i < xs.length) :
    idsOf (xs.set i r) = idsOf xs := by
  unfold idsOf
  rw [List.map_set, h]
  apply List.ext_getElem
  · simp
  · intro k h1 h2
    by_cases hk : i = k
    · subst hk
      simp [List.getElem?_eq_getElem hi]
    · simp [List.getElem_set_ne hk]

theorem distinct_after_create (c : Coll) (data : Document) (r : Record)
    (hsafe : SafeIntegerIds (data.coll c)) (h : DistinctIntegerIds (data.coll c))
    (hid : getProp r "id" = generateId (data.coll c)) :
    DistinctIntegerIds
      ((readDataFromFile (some (jsonDocument (data.setColl c (data.coll c ++ [r]))))).coll c) := by
  show DistinctIntegerIds ((jsonDocument (data.setColl c (data.coll c ++ [r]))).coll c)
  rw [coll_jsonDocument, coll_setColl]
  exact distinctIntegerIds_map_jsonRecord _ (distinctIntegerIds_append_next _ r hsafe h hid)

theorem createPet_file (ok : Bool) (body : Record) (file : Store) :
    (createPet ok body file).file = file ∨
    (createPet ok body file).file = some (jsonDocument ((readDataFromFile file).setColl Coll.pets
      ((readDataFromFile file).coll Coll.pets ++ [newPet body (readDataFromFile file)]))) := by
  unfold createPet
  split
  · exact Or.inl rfl
  · cases ok
    · exact Or.inl rfl
    · exact Or.inr rfl

theorem createVolunteer_file (ok : Bool) (body : Record) (file : Store) :
    (createVolunteer ok body file).file = file ∨
    (createVolunteer ok body file).file = some (jsonDocument
      ((readDataFromFile file).setColl Coll.volunteers
        ((readDataFromFile file).coll Coll.volunteers ++
          [newVolunteer body (readDataFromFile file)]))) := by
  unfold createVolunteer
  split
  · exact Or.inl rfl
  · cases ok
    · exact Or.inl rfl
    · exact Or.inr rfl

theorem createDonation_file (parseFloat : JsVal → JsVal) (today : String) (ok : Bool)
    (body : Record) (file : Store) :
    (createDonation parseFloat today ok body file).file = file ∨
    (createDonation parseFloat today ok body file).file = some (jsonDocument
      ((readDataFromFile file).setColl Coll.donations
        ((readDataFromFile file).coll Coll.donations ++
          [newDonation parseFloat today body (readDataFromFile file)]))) := by
  unfold createDonation
  split
  · exact Or.inl rfl
  · cases ok
    · exact Or.inl rfl
    · exact Or.inr rfl

theorem distinct_after_update (c : Coll) (ok : Bool) (idParam : String) (updates : Record)
    (file : Store) (h : DistinctIntegerIds ((readDataFromFile file).coll c)) :
    DistinctIntegerIds ((readDataFromFile (updateById c ok idParam updates file).file).coll c) := by
  unfold updateById
  simp only
  cases hidx : findIndexById ((readDataFromFile file).coll c) (parseInt (str idParam)) with
  | none => exact h
  | some i =>
    cases ok
    · exact h
    · obtain ⟨hi, heq⟩ := findIndexById_some _ _ i hidx
      simp only [persist_true]
      show DistinctIntegerIds ((jsonDocument _).coll c)
      rw [coll_jsonDocument, coll_setColl]
      apply distinctIntegerIds_map_jsonRecord
      apply distinctIntegerIds_congr _ _ _ h
      apply idsOf_set_same _ _ _ _ hi
      rw [getProp_setProp_self]
      exact (eq_of_strictEq _ _ heq).symm

theorem distinct_after_delete (c : Coll) (ok : Bool) (idParam : String) (file : Store)
    (h : DistinctIntegerIds ((readDataFromFile file).coll c)) :
    DistinctIntegerIds ((readDataFromFile (deleteById c ok idParam file).file).coll c) := by
  unfold deleteById
  simp only
  cases hidx : findIndexById ((readDataFromFile file).coll c) (parseInt (str idParam)) with
  | none => exact h
  | some i =>
    cases ok
    · exact h
    · simp only [persist_true]
      show DistinctIntegerIds ((jsonDocument _).coll c)
      rw [coll_jsonDocument, coll_setColl]
      apply distinctIntegerIds_map_jsonRecord
      refine ⟨fun r hr => h.1 r ((List.eraseIdx_sublist _ i).subset hr), ?_⟩
      exact h.2.sublist ((List.eraseIdx_sublist _ i).map _)

/-- Below `2^53` id uniqueness is kept.  When the ids of a collection are pairwise distinct
integers, they are still pairwise distinct integers in the file after an update with any
payload (also one carrying an `id`) or a delete on that collection, and, when they are safe
integers, after a create, whether the write succeeds or not and whatever status is answered. -/
theorem ids_stay_distinct_of_safe (parseFloat : JsVal → JsVal) (today : String) (ok : Bool)
    (c : Coll) (idParam : String) (payload : Record) (file : Store) :
    (SafeIntegerIds (readDataFromFile file).pets →
      DistinctIntegerIds (readDataFromFile file).pets →
      DistinctIntegerIds (readDataFromFile (createPet ok payload file).file).pets) ∧
    (SafeIntegerIds (readDataFromFile file).volunteers →
      DistinctIntegerIds (readDataFromFile file).volunteers →
      DistinctIntegerIds (readDataFromFile (createVolunteer ok payload file).file).volunteers) ∧
    (SafeIntegerIds (readDataFromFile file).donations →
      DistinctIntegerIds (readDataFromFile file).donations →
      DistinctIntegerIds
        (readDataFromFile (createDonation parseFloat today ok payload file).file).donations) ∧
    (DistinctIntegerIds ((readDataFromFile file).coll c) →
      DistinctIntegerIds
        ((readDataFromFile (updateById c ok idParam payload file).file).coll c)) ∧
    (DistinctIntegerIds ((readDataFromFile file).coll c) →
      DistinctIntegerIds ((readDataFromFile (deleteById c ok idParam file).file).coll c)) := by
  refine ⟨?_, ?_, ?_, distinct_after_update c ok idParam payload file,
    distinct_after_delete c ok idParam file⟩
  · intro hsafe h
    rcases createPet_file ok payload file with e | e
    · rw [e]; exact h
    · rw [e]
      exact distinct_after_create Coll.pets _ _ hsafe h
        (by simp [newPet, getProp, Document.coll])
  · intro hsafe h
    rcases createVolunteer_file ok payload file with e | e
    · rw [e]; exact h
    · rw [e]
      exact distinct_after_create Coll.volunteers _ _ hsafe h
        (by simp [newVolunteer, getProp, Document.coll])
  · intro hsafe h
    rcases createDonation_file parseFloat today ok payload file with e | e
    · rw [e]; exact h
    · rw [e]
      exact distinct_after_create Coll.donations _ _ hsafe h
        (by simp [newDonation, getProp, Document.coll])

/-- Claim C3 on the code.  The file holds one pet, of id `2^53`, so its ids are pairwise
distinct integers; after a valid create whose write succeeds it holds two pets with id `2^53`:
the ids are no longer distinct. -/
theorem create_duplicates_id_at_two_pow_53 :
    DistinctIntegerIds bigIdDocument.pets ∧
    (createPet true rexPayload (some bigIdDocument)).response.status = 201 ∧
    idsOf (readDataFromFile (createPet true rexPayload (some bigIdDocument)).file).pets =
      [num 9007199254740992, num 9007199254740992] ∧
    ¬ (idsOf (readDataFromFile
      (createPet true rexPayload (some bigIdDocument)).file).pets).Nodup := by
  refine ⟨⟨?_, by decide⟩, by decide, by decide, by decide⟩
  intro r hr
  simp only [bigIdDocument, List.mem_singleton] at hr
  subst hr
  exact ⟨9007199254740992, rfl⟩

/-! ## The filter -/

/-- What `filterData` of `server_new.js` keeps: an item passes exactly when, for every pair other
than `_limit`, its field is truthy and its lower-cased string form contains the lower-cased
value. -/
theorem filterItem_iff (item : Record) (q : List (String × String)) :
    filterItem item q = true ↔
      ∀ kv ∈ q, kv.1 ≠ "_limit" →
        truthy (getProp item kv.1) = true ∧
        includes (toLowerCase (toStr (getProp item kv.1))) (toLowerCase kv.2) = true := by
  induction q with
  | nil => simp [filterItem]
  | cons kv rest ih =>
    obtain ⟨key, value⟩ := kv
    unfold filterItem
    by_cases hk : key = "_limit"
    · simp [hk, ih]
    · by_cases hm : (truthy (getProp item key) &&
          includes (toLowerCase (toStr (getProp item key))) (toLowerCase value)) = true
      · rw [if_neg hk, if_pos hm, ih]
        simp only [Bool.and_eq_true] at hm
        simp [hk, hm]
      · rw [if_neg hk, if_neg hm]
        simp only [Bool.and_eq_true] at hm
        simp [hk, hm]

theorem mem_filterData_iff (data : List Record) (q : List (String × String)) (item : Record) :
    item ∈ filterData data q ↔
      item ∈ data ∧ ∀ kv ∈ q, kv.1 ≠ "_limit" →
        truthy (getProp item kv.1) = true ∧
        includes (toLowerCase (toStr (getProp item kv.1))) (toLowerCase kv.2) = true := by
  unfold filterData
  rw [List.mem_filter, filterItem_iff]

/-- Claim C4 on the code.  `location=mum` keeps the pet located in "Mumbai", but `age=0` rejects
the pet whose `age` is the number 0, although that pet has the field and its string form "0"
contains "0": the filter tests the truthiness of the field before matching. -/
theorem filterData_rejects_zero_field :
    filterData sampleDocument.pets [("location", "mum")] = sampleDocument.pets.take 1 ∧
    filterData sampleDocument.pets [("age", "0")] = [] ∧
    sampleDocument.pets.filter (fun item => specMatches item [("age", "0")]) =
      sampleDocument.pets.drop 1 ∧
    filterData [[("id", num 1), ("name", str "")]] [("name", "")] = [] ∧
    specMatches [("id", num 1), ("name", str "")] [("name", "")] = true := by
  decide

theorem filterItem_append (item : Record) (pre post : List (String × String)) :
    filterItem item (pre ++ post) = (filterItem item pre && filterItem item post) := by
  induction pre with
  | nil => simp [filterItem]
  | cons kv rest ih =>
    obtain ⟨key, value⟩ := kv
    simp only [List.cons_append, filterItem]
    split_ifs <;> simp [ih]

theorem filterItem_drop_limit (item : Record) (q : List (String × String)) :
    filterItem item (q.filter (fun kv => kv.1 != "_limit")) = filterItem item q := by
  induction q with
  | nil => rfl
  | cons kv rest ih =>
    obtain ⟨key, value⟩ := kv
    by_cases hk : key = "_limit"
    · have hf : List.filter (fun kv : String × String => kv.1 != "_limit")
          ((key, value) :: rest) = List.filter (fun kv => kv.1 != "_limit") rest := by
        simp [List.filter_cons, hk]
      rw [hf, ih]
      simp [filterItem, hk]
    · have hf : List.filter (fun kv : String × String => kv.1 != "_limit")
          ((key, value) :: rest) =
          (key, value) :: List.filter (fun kv => kv.1 != "_limit") rest := by
        simp [List.filter_cons, hk]
      rw [hf]
      simp only [filterItem, if_neg hk, ih]

theorem filterData_drop_limit (data : List Record) (q : List (String × String)) :
    filterData data (q.filter (fun kv => kv.1 != "_limit")) = filterData data q := by
  unfold filterData
  congr 1
  funext item
  exact filterItem_drop_limit item q

/-- The list handlers filter with the whole query: stripping `_limit` first and skipping the
filter when nothing else remains changes nothing. -/
theorem listed_eq_filterData (items : List Record) (query : List (String × String)) :
    (if (query.filter (fun kv => kv.1 != "_limit")).length > 0 then
        filterData items (query.filter (fun kv => kv.1 != "_limit"))
      else items) = filterData items query := by
  split
  · exact filterData_drop_limit items query
  · rename_i h
    have hnil : query.filter (fun kv => kv.1 != "_limit") = [] := by
      cases hq : query.filter (fun kv => kv.1 != "_limit") with
      | nil => rfl
      | cons a as => rw [hq] at h; simp at h
    rw [← filterData_drop_limit, hnil]
    simp [filterData, filterItem]

/-- Claim C7.  `filterData` of `server_new.js` never treats `_limit` as a filter field: the
result is the same for a criteria mapping and for it with the `_limit` entries removed, and the
same with a `_limit` entry of any value added at any position. -/
theorem filterData_ignores_limit (data : List Record) (q pre post : List (String × String))
    (v : String) :
    filterData data (q.filter (fun kv => kv.1 != "_limit")) = filterData data q ∧
    filterData data (pre ++ ("_limit", v) :: post) = filterData data (pre ++ post) := by
  refine ⟨filterData_drop_limit data q, ?_⟩
  unfold filterData
  congr 1
  funext item
  rw [filterItem_append, filterItem_append]
  simp [filterItem]

/-! ## The `_limit` parameter -/

theorem truthy_numToString (n : Int) : truthy (str (numToString n)) = true := by
  show ((numToString n).data != []) = true
  unfold numToString
  split_ifs
  · simp
  · have := (natToString_spec n.toNat).2.1
    simpa using this

theorem slice_num {α : Type} (xs : List α) (n : Int) :
    slice xs (num n) =
      if n < 0 then xs.take (xs.length - n.natAbs) else xs.take n.toNat := rfl

/-- With `_limit` the decimal string of `n`, the list handlers answer `slice(0, n)` of the
filtered collection. -/
theorem listRecords_limit (c : Coll) (query : List (String × String)) (file : Store) (n : Int)
    (h : queryProp query "_limit" = str (numToString n)) :
    (listRecords c query file).response.status = 200 ∧
    (listRecords c query file).records =
      slice (filterData ((readDataFromFile file).coll c) query) (num n) ∧
    (listRecords c query file).response.count =
      some (listRecords c query file).records.length := by
  unfold listRecords Outcome.records
  simp only [h, truthy_numToString, if_true, parseInt_numToString, listed_eq_filterData]
  exact ⟨trivial, trivial, trivial⟩

/-- Claim C5, as the code behaves.  For every store, every query whose `_limit` value is the
decimal string of an integer `n`, the list handler answers 200 with a prefix of the filtered
collection (so the original relative order is kept) and `count` equal to its length; when `n`
is not negative there are at most `n` records. -/
theorem limit_returns_initial_segment (c : Coll) (query : List (String × String)) (file : Store)
    (n : Int) (h : queryProp query "_limit" = str (numToString n)) :
    (listRecords c query file).response.status = 200 ∧
    (listRecords c query file).records <+:
      filterData ((readDataFromFile file).coll c) query ∧
    (listRecords c query file).response.count =
      some (listRecords c query file).records.length ∧
    (0 ≤ n → ((listRecords c query file).records.length : Int) ≤ n) := by
  obtain ⟨h1, h2, h3⟩ := listRecords_limit c query file n h
  refine ⟨h1, ?_, h3, ?_⟩
  · rw [h2, slice_num]
    split_ifs <;> exact List.take_prefix _ _
  · intro hn
    rw [h2, slice_num, if_neg (by omega)]
    have := List.length_take_le n.toNat (filterData ((readDataFromFile file).coll c) query)
    omega

/-- Claim C5 at the sample document: `_limit=1` with the filter `status=a` answers the first of
the two matching pets. -/
theorem limit_returns_initial_segment_witness :
    queryProp [("status", "a"), ("_limit", "1")] "_limit" = str (numToString 1) ∧
    (listRecords Coll.pets [("status", "a"), ("_limit", "1")]
      (some sampleDocument)).response.status = 200 ∧
    (listRecords Coll.pets [("status", "a"), ("_limit", "1")] (some sampleDocument)).records <+:
      filterData ((readDataFromFile (some sampleDocument)).coll Coll.pets)
        [("status", "a"), ("_limit", "1")] ∧
    ((listRecords Coll.pets [("status", "a"), ("_limit", "1")]
      (some sampleDocument)).records.length : Int) ≤ 1 :=
  ⟨by decide,
    (limit_returns_initial_segment Coll.pets [("status", "a"), ("_limit", "1")] (some sampleDocument) 1
      (by decide)).1,
    (limit_returns_initial_segment Coll.pets [("status", "a"), ("_limit", "1")] (some sampleDocument) 1
      (by decide)).2.1,
    (limit_returns_initial_segment Coll.pets [("status", "a"), ("_limit", "1")] (some sampleDocument) 1
      (by decide)).2.2.2 (by decide)⟩

/-- Claim C5 refuted at `_limit=-1`: on the two sample pets the list handler answers one
record, which is more than -1. -/
theorem limit_negative_counterexample :
    queryProp [("_limit", "-1")] "_limit" = str (numToString (-1)) ∧
    (listRecords Coll.pets [("_limit", "-1")] (some sampleDocument)).records =
      sampleDocument.pets.take 1 ∧
    ¬ (((listRecords Coll.pets [("_limit", "-1")] (some sampleDocument)).records.length : Int)
      ≤ -1) := by
  decide

/-- Claim C6, as the code behaves.  When the `_limit` value is a non-empty string that
`parseInt` turns into `NaN`, the list handler answers 200 with no record at all and `count` 0,
because `slice(0, NaN)` is empty. -/
theorem limit_nan_returns_nothing (c : Coll) (query : List (String × String)) (file : Store)
    (s : String) (h : queryProp query "_limit" = str s) (hne : s ≠ "")
    (hnan : parseInt (str s) = nan) :
    (listRecords c query file).response =
      { status := 200, success := true, message := Option.none, count := some 0,
        data := Payload.records [], error := Option.none } := by
  have ht : truthy (str s) = true := by
    have : s.data ≠ [] := fun hd => hne (by cases s; simp_all)
    simpa [truthy] using this
  unfold listRecords
  simp only [h, ht, if_true, hnan, slice, List.length_nil]

/-- Claim C6 at `_limit=abc` on the sample document. -/
theorem limit_nan_returns_nothing_witness :
    (listRecords Coll.pets [("_limit", "abc")] (some sampleDocument)).response =
      { status := 200, success := true, message := Option.none, count := some 0,
        data := Payload.records [], error := Option.none } :=
  limit_nan_returns_nothing Coll.pets [("_limit", "abc")] (some sampleDocument) "abc"
    (by decide) (by decide) (by decide)

/-- Claim C6 refuted at `_limit=abc`: `parseInt("abc")` is `NaN`, both sample pets pass the
(empty) remaining criteria, and the response carries none of them, with count 0. -/
theorem limit_nan_counterexample :
    parseInt (str "abc") = nan ∧
    filterData sampleDocument.pets [("_limit", "abc")] = sampleDocument.pets ∧
    (listRecords Coll.pets [("_limit", "abc")] (some sampleDocument)).records = [] ∧
    (listRecords Coll.pets [("_limit", "abc")] (some sampleDocument)).response.count = some 0 ∧
    ¬ ((listRecords Coll.pets [("_limit", "abc")] (some sampleDocument)).records =
      filterData sampleDocument.pets [("_limit", "abc")]) := by
  decide

/-! ## Update, delete and validation -/

theorem findIndexById_none (xs : List Record) (v : JsVal)
    (h : ∀ r ∈ xs, strictEq (getProp r "id") v = false) : findIndexById xs v = Option.none := by
  induction xs with
  | nil => rfl
  | cons x xs ih =>
    have hx := h x (by simp)
    have ih' := ih (fun r hr => h r (List.mem_cons_of_mem _ hr))
    simp [findIndexById, hx, ih']

theorem findIndexById_exists (xs : List Record) (i : Int)
    (h : ∃ r ∈ xs, getProp r "id" = num i) : ∃ k, findIndexById xs (num i) = some k := by
  induction xs with
  | nil => simp at h
  | cons x xs ih =>
    unfold findIndexById
    by_cases hx : strictEq (getProp x "id") (num i) = true
    · exact ⟨0, by rw [if_pos hx]⟩
    · rw [if_neg hx]
      obtain ⟨r, hr, hri⟩ := h
      rcases List.mem_cons.1 hr with rfl | hr
      · rw [hri, strictEq_num] at hx
        simp at hx
      · obtain ⟨k, hk⟩ := ih ⟨r, hr, hri⟩
        exact ⟨k + 1, by rw [hk]⟩

theorem getD_map_set (xs : List Record) (k : Nat) (u : Record) (h : k < xs.length) :
    ((xs.set k u).map jsonRecord).getD k [] = jsonRecord u := by
  have hlen : k < ((xs.set k u).map jsonRecord).length := by simpa using h
  rw [List.getD_eq_getElem _ _ hlen]
  simp

/-- Claim C8.  When the collection holds a record with id `i` and the path parameter parses to
`i`, an update with any payload, also one carrying another `id`, leaves the record at the
position of the first record with id `i` with id `i` in the file, whether the write succeeds
or not, and when the write succeeds the answer is 200 with a record whose id is `i`. -/
theorem update_preserves_id (c : Coll) (ok : Bool) (idParam : String) (updates : Record)
    (file : Store) (i : Int) (hparse : parseInt (str idParam) = num i)
    (hex : ∃ r ∈ (readDataFromFile file).coll c, getProp r "id" = num i) :
    ∃ k, findIndexById ((readDataFromFile file).coll c) (num i) = some k ∧
      getProp (((readDataFromFile (updateById c ok idParam updates file).file).coll c).getD k [])
        "id" = num i ∧
      (updateById c true idParam updates file).response.status = 200 ∧
      (updateById c true idParam updates file).dataId = num i := by
  obtain ⟨k, hk⟩ := findIndexById_exists _ i hex
  obtain ⟨hlt, heq⟩ := findIndexById_some _ _ k hk
  have hstored : getProp (((readDataFromFile
      (updateById c true idParam updates file).file).coll c).getD k []) "id" = num i := by
    unfold updateById
    simp only [hparse, hk, persist_true]
    show getProp (((jsonDocument _).coll c).getD k []) "id" = num i
    rw [coll_jsonDocument, coll_setColl, getD_map_set _ _ _ hlt]
    exact getProp_jsonRecord_num _ "id" i (getProp_setProp_self _ _ _)
  refine ⟨k, hk, ?_, ?_, ?_⟩
  · cases ok
    · unfold updateById
      simp only [hparse, hk, persist_false]
      exact eq_of_strictEq _ _ heq
    · exact hstored
  · unfold updateById
    simp only [hparse, hk, persist_true]
    rfl
  · unfold updateById
    simp only [hparse, hk, persist_true, Outcome.dataId, success]
    exact getProp_setProp_self _ _ _

/-- Claim C8 at the sample document: pet 3 is updated with a payload carrying `id` 1. -/
theorem update_preserves_id_witness :
    ∃ k, findIndexById ((readDataFromFile (some sampleDocument)).coll Coll.pets) (num 3)
        = some k ∧
      getProp (((readDataFromFile (updateById Coll.pets true "3" renumberPayload
        (some sampleDocument)).file).coll Coll.pets).getD k []) "id" = num 3 ∧
      (updateById Coll.pets true "3" renumberPayload (some sampleDocument)).response.status
        = 200 ∧
      (updateById Coll.pets true "3" renumberPayload (some sampleDocument)).dataId = num 3 :=
  update_preserves_id Coll.pets true "3" renumberPayload (some sampleDocument) 3 (by decide)
    ⟨sampleDocument.pets.getD 1 [], by decide, by decide⟩

/-- Claim C9.  When no record of the collection has the id the path parameter parses to, delete
answers 404, does not call `writeDataToFile`, and leaves the file, hence the collection with
its records, their order and its length, unchanged. -/
theorem delete_missing_not_found (c : Coll) (ok : Bool) (idParam : String) (file : Store)
    (h : ∀ r ∈ (readDataFromFile file).coll c, getProp r "id" ≠ parseInt (str idParam)) :
    (deleteById c ok idParam file).response =
      failure 404 ⟨c.noun.data ++ " not found".data⟩ ∧
    (deleteById c ok idParam file).response.status = 404 ∧
    (deleteById c ok idParam file).written = Option.none ∧
    (deleteById c ok idParam file).file = file ∧
    (readDataFromFile (deleteById c ok idParam file).file).coll c =
      (readDataFromFile file).coll c := by
  have hidx : findIndexById ((readDataFromFile file).coll c) (parseInt (str idParam)) =
      Option.none := by
    apply findIndexById_none
    intro r hr
    cases hs : strictEq (getProp r "id") (parseInt (str idParam)) with
    | false => rfl
    | true => exact absurd (eq_of_strictEq _ _ hs) (h r hr)
  unfold deleteById
  simp only [hidx]
  simp [failure]

/-- Claim C9 at the sample document: no pet has id 999. -/
theorem delete_missing_not_found_witness :
    (deleteById Coll.pets true "999" (some sampleDocument)).response =
      failure 404 "Pet not found" ∧
    (deleteById Coll.pets true "999" (some sampleDocument)).response.status = 404 ∧
    (deleteById Coll.pets true "999" (some sampleDocument)).written = Option.none ∧
    (deleteById Coll.pets true "999" (some sampleDocument)).file = some sampleDocument ∧
    (readDataFromFile (deleteById Coll.pets true "999" (some sampleDocument)).file).coll
      Coll.pets = (readDataFromFile (some sampleDocument)).coll Coll.pets :=
  delete_missing_not_found Coll.pets true "999" (some sampleDocument) (by decide)

theorem persist_status_ne_400 (ok : Bool) (data : Document) (file : Store) (status : Nat)
    (message : String) (r : Record) (errorMessage : String) (h : status ≠ 400) :
    (persist ok data file (success status message r) errorMessage).response.status ≠ 400 := by
  cases ok
  · rw [persist_false]; simp [saveFailure]
  · rw [persist_true]; simpa [success] using h

/-- The create handlers answer 400 exactly when a required field is falsy, that is missing,
`null`, `false`, `0`, `NaN` or the empty string. -/
theorem create_400_iff_falsy (parseFloat : JsVal → JsVal) (today : String) (ok : Bool)
    (body : Record) (file : Store) :
    ((createPet ok body file).response.status = 400 ↔
      ∃ key ∈ petRequired, truthy (getProp body key) = false) ∧
    ((createVolunteer ok body file).response.status = 400 ↔
      ∃ key ∈ volunteerRequired, truthy (getProp body key) = false) ∧
    ((createDonation parseFloat today ok body file).response.status = 400 ↔
      ∃ key ∈ donationRequired, truthy (getProp body key) = false) := by
  refine ⟨?_, ?_, ?_⟩
  · unfold createPet
    split
    · rename_i h
      simp only [failure, true_iff]
      simpa [petRequired, or_assoc] using h
    · rename_i h
      simp only [persist_status_ne_400 ok _ file 201 _ _ _ (by decide), false_iff]
      simpa [petRequired, and_assoc] using h
  · unfold createVolunteer
    split
    · rename_i h
      simp only [failure, true_iff]
      simpa [volunteerRequired, or_assoc] using h
    · rename_i h
      simp only [persist_status_ne_400 ok _ file 201 _ _ _ (by decide), false_iff]
      simpa [volunteerRequired, and_assoc] using h
  · unfold createDonation
    split
    · rename_i h
      simp only [failure, true_iff]
      simpa [donationRequired, or_assoc] using h
    · rename_i h
      simp only [persist_status_ne_400 ok _ file 201 _ _ _ (by decide), false_iff]
      simpa [donationRequired, and_assoc] using h

/-- On a 400 answer the create handlers leave the file as it was and write nothing. -/
theorem create_400_unchanged (parseFloat : JsVal → JsVal) (today : String) (ok : Bool)
    (body : Record) (file : Store) :
    ((createPet ok body file).response.status = 400 →
      (createPet ok body file).file = file ∧ (createPet ok body file).written = Option.none) ∧
    ((createVolunteer ok body file).response.status = 400 →
      (createVolunteer ok body file).file = file ∧
      (createVolunteer ok body file).written = Option.none) ∧
    ((createDonation parseFloat today ok body file).response.status = 400 →
      (createDonation parseFloat today ok body file).file = file ∧
      (createDonation parseFloat today ok body file).written = Option.none) := by
  refine ⟨?_, ?_, ?_⟩
  · unfold createPet
    split
    · exact fun _ => ⟨rfl, rfl⟩
    · exact fun h => absurd h (persist_status_ne_400 ok _ file 201 _ _ _ (by decide))
  · unfold createVolunteer
    split
    · exact fun _ => ⟨rfl, rfl⟩
    · exact fun h => absurd h (persist_status_ne_400 ok _ file 201 _ _ _ (by decide))
  · unfold createDonation
    split
    · exact fun _ => ⟨rfl, rfl⟩
    · exact fun h => absurd h (persist_status_ne_400 ok _ file 201 _ _ _ (by decide))

/-- Claim C10 on the code.  A pet payload in which all six required fields are present is
answered 400 when `age` is the number 0, while the same payload with `age` sent as the string
"0" is answered 201; likewise a donation payload with all four required fields present and
`amount` the number 0 is answered 400.  The validation tests truthiness, not presence. -/
theorem create_rejects_present_zero :
    (∀ key ∈ petRequired, hasField zeroAgePayload key = true) ∧
    (createPet true zeroAgePayload (some sampleDocument)).response =
      failure 400 "Missing required fields: name, type, breed, age, status, location" ∧
    (createPet true zeroAgeStringPayload (some sampleDocument)).response.status = 201 ∧
    (∀ key ∈ donationRequired, hasField zeroAmountPayload key = true) ∧
    (createDonation sampleParseFloat "2024-02-05" true zeroAmountPayload
      (some sampleDocument)).response =
      failure 400 "Missing required fields: donorName, amount, type, purpose" := by
  decide

/-! ## Statistics -/

/-- Claim C13.  On the empty document, and also when the file cannot be read, the statistics
handler answers 200 with every count 0, `totalDonations` 0 and the three grouping maps empty. -/
theorem stats_of_empty_document :
    getStats (some emptyDocument) =
      { status := 200, success := true,
        data :=
          { totalPets := 0, availablePets := 0, adoptedPets := 0, fosterPets := 0,
            totalVolunteers := 0, totalDonations := num 0, donationCount := 0,
            donationsByType := [], petsByType := [], volunteersByRole := [] } } ∧
    getStats Option.none = getStats (some emptyDocument) := by
  decide

theorem getProp_setProp_other (r : Record) (k key : String) (v : JsVal) (h : k ≠ key) :
    getProp (setProp r k v) key = getProp r key := by
  induction r with
  | nil => simp [setProp, getProp, h]
  | cons kv rest ih =>
    obtain ⟨k', w⟩ := kv
    by_cases hk : k' = k
    · subst hk
      simp [setProp, getProp, h]
    · by_cases hk' : k' = key
      · subst hk'
        simp [setProp, getProp, hk]
      · simp [setProp, getProp, hk, hk', ih]

theorem keys_setProp (r : Record) (k : String) (v : JsVal) :
    (setProp r k v).map (fun kv => kv.1) =
      if hasField r k = true then r.map (fun kv => kv.1) else r.map (fun kv => kv.1) ++ [k] := by
  induction r with
  | nil => simp [setProp, hasField]
  | cons kv rest ih =>
    obtain ⟨k', w⟩ := kv
    by_cases hk : k' = k
    · simp [setProp, hasField, hk]
    · have hne : (k' == k) = false := by simpa using hk
      simp only [setProp, if_neg hk, List.map_cons, ih, hasField, List.any_cons, hne,
        Bool.false_or]
      split_ifs <;> simp

theorem hasField_iff (r : Record) (key : String) :
    hasField r key = true ↔ key ∈ r.map (fun kv => kv.1) := by
  simp only [hasField, List.any_eq_true, List.mem_map, beq_iff_eq]

theorem hasField_setProp (r : Record) (k key : String) (v : JsVal) :
    hasField (setProp r k v) key = true ↔ hasField r key = true ∨ k = key := by
  rw [hasField_iff, keys_setProp]
  split_ifs with h
  · rw [← hasField_iff]
    constructor
    · exact Or.inl
    · rintro (h' | rfl)
      · exact h'
      · exact h
  · rw [List.mem_append, ← hasField_iff, List.mem_singleton]
    constructor
    · rintro (h' | rfl)
      · exact Or.inl h'
      · exact Or.inr rfl
    · rintro (h' | rfl)
      · exact Or.inl h'
      · exact Or.inr rfl

theorem nodup_keys_setProp (r : Record) (k : String) (v : JsVal)
    (h : (r.map (fun kv => kv.1)).Nodup) : ((setProp r k v).map (fun kv => kv.1)).Nodup := by
  rw [keys_setProp]
  split_ifs with hk
  · exact h
  · rw [List.nodup_append]
    refine ⟨h, by simp, ?_⟩
    intro a ha hb
    rw [List.mem_singleton] at hb
    subst hb
    exact hk ((hasField_iff r a).2 ha)

theorem getProp_eq_undefined (r : Record) (key : String) (h : hasField r key = false) :
    getProp r key = undefined := by
  induction r with
  | nil => rfl
  | cons kv rest ih =>
    obtain ⟨k, v⟩ := kv
    simp only [hasField, List.any_cons, Bool.or_eq_false_iff, beq_eq_false_iff_ne] at h
    unfold getProp
    rw [if_neg h.1]
    exact ih h.2

theorem countEq_eq_countP (items : List Record) (field value : String) :
    countEq items field value = items.countP (fun p => getProp p field == str value) := by
  unfold countEq
  rw [List.countP_eq_length_filter]
  congr 2
  funext p
  cases h : getProp p field <;> simp [strictEq]

/-- The reduction of the amounts is their exact sum as long as no partial sum leaves the range
in which doubles are exact. -/
theorem sumAmounts_fold (ds : List Record) : ∀ a : Int, IntegerAmounts ds →
    a.natAbs + absTotal ds ≤ 9007199254740992 →
    ds.foldl (fun sum d => jsAdd sum (getProp d "amount")) (num a) =
      num (a + (ds.map amountOf).sum) := by
  induction ds with
  | nil => intro a _ _; simp
  | cons d ds ih =>
    intro a h hb
    obtain ⟨x, hx⟩ := h d (by simp)
    have hds : IntegerAmounts ds := fun r hr => h r (List.mem_cons_of_mem _ hr)
    have hamount : amountOf d = x := by simp [amountOf, hx]
    have htotal : absTotal (d :: ds) = x.natAbs + absTotal ds := by
      simp [absTotal, hamount]
    rw [htotal] at hb
    have hexact : roundInt (a + x) = a + x := roundInt_exact _ (by omega) (by omega)
    rw [List.foldl_cons, hx, jsAdd_num, hexact, ih (a + x) hds (by omega), List.map_cons,
      List.sum_cons, hamount]
    congr 1
    ring

theorem plain_ne_proto (key : String) (h : objectPrototypeProp key = undefined) :
    key ≠ "__proto__" := by
  rintro rfl
  revert h
  decide

/-- On a key that names no member of `Object.prototype` the counting step reads and writes an
own property. -/
theorem countStep_plain (field : String) (acc d : Record)
    (hplain : objectPrototypeProp (toStr (getProp d field)) = undefined) :
    countStep field acc d =
      setProp acc (toStr (getProp d field))
        (jsAdd (if truthy (getProp acc (toStr (getProp d field))) then
          getProp acc (toStr (getProp d field)) else num 0) (num 1)) := by
  have hlook : lookupProp acc (toStr (getProp d field)) =
      getProp acc (toStr (getProp d field)) := by
    unfold lookupProp
    cases hf : hasField acc (toStr (getProp d field)) with
    | true => simp
    | false => simp [hplain, getProp_eq_undefined acc _ hf]
  unfold countStep assignProp
  simp only [hlook, if_neg (plain_ne_proto _ hplain)]

theorem countStep_getProp (field : String) (acc d : Record) (n : String → Nat)
    (hplain : objectPrototypeProp (toStr (getProp d field)) = undefined)
    (hbound : n (toStr (getProp d field)) < 9007199254740992)
    (hget : ∀ key, getProp acc key = if n key = 0 then undefined else num (n key)) (key : String) :
    getProp (countStep field acc d) key =
      if n key + (if toStr (getProp d field) = key then 1 else 0) = 0 then undefined
      else num ((n key + (if toStr (getProp d field) = key then 1 else 0) : Nat)) := by
  rw [countStep_plain field acc d hplain]
  by_cases hk : toStr (getProp d field) = key
  · rw [hk] at hbound ⊢
    rw [getProp_setProp_self, hget key]
    have hexact : roundInt ((n key : Int) + 1) = (n key : Int) + 1 :=
      roundInt_exact _ (by omega) (by omega)
    by_cases h0 : n key = 0
    · simp [h0, truthy, jsAdd_num, roundInt_exact]
    · have hne : ((n key : Int) != 0) = true := by simpa using h0
      simp [h0, truthy, hne, jsAdd_num, hexact]
  · rw [getProp_setProp_other _ _ _ _ hk, hget key]
    simp [hk]

/-- The counting reduction started from a map that holds the counts `n` ends with the counts
`n` plus the occurrences in the list, when no key names a member of `Object.prototype` and the
counts stay below `2^53`. -/
theorem countBy_fold (field : String) (items : List Record) :
    ∀ (acc : Record) (n : String → Nat),
      (∀ key, getProp acc key = if n key = 0 then undefined else num (n key)) →
      (∀ key, hasField acc key = true ↔ 0 < n key) →
      (acc.map (fun kv => kv.1)).Nodup →
      plainKeys items field = true →
      (∀ key, n key + occurrences items field key ≤ 9007199254740992) →
      (∀ key, getProp (items.foldl (countStep field) acc) key =
        if n key + occurrences items field key = 0 then undefined
        else num ((n key + occurrences items field key : Nat))) ∧
      (∀ key, hasField (items.foldl (countStep field) acc) key = true ↔
        0 < n key + occurrences items field key) ∧
      ((items.foldl (countStep field) acc).map (fun kv => kv.1)).Nodup := by
  induction items with
  | nil =>
    intro acc n hget hhas hnodup _ _
    simpa [occurrences] using ⟨hget, hhas, hnodup⟩
  | cons d rest ih =>
    intro acc n hget hhas hnodup hplain hbound
    have hocc : ∀ key, occurrences (d :: rest) field key =
        occurrences rest field key + (if toStr (getProp d field) = key then 1 else 0) := by
      intro key
      simp [occurrences, List.countP_cons]
    have hpd : objectPrototypeProp (toStr (getProp d field)) = undefined := by
      simp only [plainKeys, List.all_cons, Bool.and_eq_true, beq_iff_eq] at hplain
      exact hplain.1
    have hprest : plainKeys rest field = true := by
      simp only [plainKeys, List.all_cons, Bool.and_eq_true] at hplain
      exact hplain.2
    have hbd : n (toStr (getProp d field)) < 9007199254740992 := by
      have := hbound (toStr (getProp d field))
      rw [hocc] at this
      simp at this
      omega
    have harith : ∀ key, n key + (if toStr (getProp d field) = key then 1 else 0) +
        occurrences rest field key = n key + occurrences (d :: rest) field key := by
      intro key
      rw [hocc key]; omega
    have step := ih (countStep field acc d)
      (fun key => n key + (if toStr (getProp d field) = key then 1 else 0))
      (countStep_getProp field acc d n hpd hbd hget)
      (by
        intro key
        rw [countStep_plain field acc d hpd, hasField_setProp, hhas key]
        by_cases hk : toStr (getProp d field) = key <;> simp [hk])
      (by
        rw [countStep_plain field acc d hpd]
        exact nodup_keys_setProp _ _ _ hnodup)
      hprest
      (by
        intro key
        rw [harith key]
        exact hbound key)
    simp only [List.foldl_cons]
    refine ⟨?_, ?_, step.2.2⟩
    · intro key
      rw [step.1 key, harith key]
    · intro key
      rw [step.2.1 key, harith key]

/-- The counting reduction builds the count map when no value observed names a member of
`Object.prototype` and the list has fewer than `2^53` records. -/
theorem countBy_isCountMap (items : List Record) (field : String)
    (hplain : plainKeys items field = true) (hlen : items.length ≤ 9007199254740992) :
    IsCountMap (countBy items field) items field := by
  have hle : ∀ key, occurrences items field key ≤ items.length := by
    intro key
    exact List.countP_le_length _
  obtain ⟨h1, h2, h3⟩ := countBy_fold field items [] (fun _ => 0)
    (by intro key; simp [getProp]) (by intro key; simp [hasField]) (by simp) hplain
    (by
      intro key
      show 0 + occurrences items field key ≤ 9007199254740992
      have := hle key
      omega)
  have hpos : ∀ key, 0 < occurrences items field key ↔
      ∃ d ∈ items, toStr (getProp d field) = key := by
    intro key
    simp [occurrences, List.countP_pos_iff]
  refine ⟨?_, ?_, h3⟩
  · intro d hd
    have h := h1 (toStr (getProp d field))
    have hp : 0 < occurrences items field (toStr (getProp d field)) :=
      (hpos _).2 ⟨d, hd, rfl⟩
    simp only [Nat.zero_add] at h
    rw [show countBy items field = items.foldl (countStep field) [] from rfl, h,
      if_neg (by omega)]
  · intro key
    have h := h2 key
    simp only [Nat.zero_add] at h
    rw [show countBy items field = items.foldl (countStep field) [] from rfl, h, hpos]

/-- The counts of `GET /api/stats` that involve no addition: the answer is 200 with the lengths
of the collections and the numbers of pets whose status is exactly "Available", "Adopted" and
"Foster Care". -/
theorem stats_counts (file : Store) :
    (getStats file).status = 200 ∧
    (getStats file).data.donationCount = (readDataFromFile file).donations.length ∧
    (getStats file).data.totalPets = (readDataFromFile file).pets.length ∧
    (getStats file).data.totalVolunteers = (readDataFromFile file).volunteers.length ∧
    (getStats file).data.availablePets =
      (readDataFromFile file).pets.countP (fun p => getProp p "status" == str "Available") ∧
    (getStats file).data.adoptedPets =
      (readDataFromFile file).pets.countP (fun p => getProp p "status" == str "Adopted") ∧
    (getStats file).data.fosterPets =
      (readDataFromFile file).pets.countP (fun p => getProp p "status" == str "Foster Care") :=
  ⟨rfl, rfl, rfl, rfl, countEq_eq_countP _ _ _, countEq_eq_countP _ _ _,
    countEq_eq_countP _ _ _⟩

/-- For integer amounts whose absolute values add up to at most `2^53`, `totalDonations` is
the sum of the amounts. -/
theorem stats_total_of_safe (file : Store)
    (h : IntegerAmounts (readDataFromFile file).donations)
    (hsafe : absTotal (readDataFromFile file).donations ≤ 9007199254740992) :
    (getStats file).data.totalDonations =
      num (((readDataFromFile file).donations.map amountOf).sum) := by
  have := sumAmounts_fold (readDataFromFile file).donations 0 h (by simpa using hsafe)
  simpa [getStats, computeStats, sumAmounts] using this

/-- When no type or role observed names a member of `Object.prototype` (and no collection has
more than `2^53` records), each grouping map of `GET /api/stats` maps every value observed to
the number of records having it and has no other key. -/
theorem stats_maps_of_plain (file : Store)
    (hd : plainKeys (readDataFromFile file).donations "type" = true)
    (hp : plainKeys (readDataFromFile file).pets "type" = true)
    (hv : plainKeys (readDataFromFile file).volunteers "role" = true)
    (hld : (readDataFromFile file).donations.length ≤ 9007199254740992)
    (hlp : (readDataFromFile file).pets.length ≤ 9007199254740992)
    (hlv : (readDataFromFile file).volunteers.length ≤ 9007199254740992) :
    IsCountMap (getStats file).data.donationsByType (readDataFromFile file).donations "type" ∧
    IsCountMap (getStats file).data.petsByType (readDataFromFile file).pets "type" ∧
    IsCountMap (getStats file).data.volunteersByRole (readDataFromFile file).volunteers
      "role" :=
  ⟨countBy_isCountMap _ _ hd hld, countBy_isCountMap _ _ hp hlp, countBy_isCountMap _ _ hv hlv⟩

/-- Claim C14 on the code.  A pet whose type is "constructor" is accepted by the create
handler, and the statistics then map "constructor" to the string
"function Object() { [native code] }1" instead of the count 1, because the accumulator `{}`
inherits `constructor` from `Object.prototype`, which is truthy, and `+ 1` concatenates.  A pet whose type is "__proto__" gets no key at all. -/
theorem stats_miscounts_inherited_key :
    (createPet true constructorPayload (some emptyDocument)).response.status = 201 ∧
    (createPet true constructorPayload (some emptyDocument)).file = some constructorDocument ∧
    occurrences constructorDocument.pets "type" "constructor" = 1 ∧
    getProp (getStats (some constructorDocument)).data.petsByType "constructor" =
      str "function Object() \x7b [native code] \x7d1" ∧
    ¬ (getProp (getStats (some constructorDocument)).data.petsByType "constructor" = num 1) ∧
    (getStats (some protoDocument)).data.petsByType = [] ∧
    occurrences protoDocument.pets "type" "__proto__" = 1 := by
  decide

/-! ## The two implementations of the filter -/

theorem filterItemOld_eq (item : Record) (q : List (String × String))
    (h : ∀ kv ∈ q, kv.1 ≠ "_limit") : filterItemOld item q = filterItem item q := by
  induction q with
  | nil => rfl
  | cons kv rest ih =>
    obtain ⟨key, value⟩ := kv
    have hk : key ≠ "_limit" := h (key, value) (by simp)
    have ih' := ih (fun kv hkv => h kv (List.mem_cons_of_mem _ hkv))
    simp only [filterItemOld, filterItem, if_neg hk, ih']

/-- Claim C15, as the code behaves.  For every record list and every criteria mapping that has
no `_limit` key, `filterData` of `server_old.js` and `filterData` of `server_new.js` return the
same result; for any criteria the new one returns what the old one returns on the criteria
without their `_limit` entries. -/
theorem filterData_old_eq_new (data : List Record) (q : List (String × String)) :
    ((∀ kv ∈ q, kv.1 ≠ "_limit") → filterDataOld data q = filterData data q) ∧
    filterDataOld data (q.filter (fun kv => kv.1 != "_limit")) = filterData data q := by
  have hgen : ∀ q' : List (String × String), (∀ kv ∈ q', kv.1 ≠ "_limit") →
      filterDataOld data q' = filterData data q' := by
    intro q' h
    unfold filterDataOld filterData
    congr 1
    funext item
    exact filterItemOld_eq item q' h
  refine ⟨hgen q, ?_⟩
  rw [hgen _ (by
    intro kv hkv
    have := (List.mem_filter.1 hkv).2
    simpa using this), filterData_drop_limit]

/-- Claim C15 at the sample pets with the criteria `location=mum`. -/
theorem filterData_old_eq_new_witness :
    filterDataOld sampleDocument.pets [("location", "mum")] =
      filterData sampleDocument.pets [("location", "mum")] :=
  (filterData_old_eq_new sampleDocument.pets [("location", "mum")]).1 (by decide)

/-- Claim C15 refuted at the criteria `_limit=1`: the old `filterData` treats `_limit` as a
field and rejects both sample pets, the new one skips it and keeps both. -/
theorem filterData_old_ne_new_counterexample :
    filterDataOld sampleDocument.pets [("_limit", "1")] = [] ∧
    filterData sampleDocument.pets [("_limit", "1")] = sampleDocument.pets ∧
    ¬ (filterDataOld sampleDocument.pets [("_limit", "1")] =
      filterData sampleDocument.pets [("_limit", "1")]) := by
  decide

/-! ## Lookup by id -/

/-- Claim C12.  When the path parameter parses to the integer `i`, get-by-id on pets answers 404
with `{success: false, message: "Pet not found"}` exactly when no pet has id `i`; otherwise it
answers 200 with the first pet, in collection order, whose id is `i`; in both cases the file is
left as it was and nothing is written. -/
theorem getById_pets (idParam : String) (file : Store) (i : Int)
    (hparse : parseInt (str idParam) = num i) :
    ((getById Coll.pets idParam file).response = failure 404 "Pet not found" ↔
      ∀ p ∈ (readDataFromFile file).pets, getProp p "id" ≠ num i) ∧
    ((getById Coll.pets idParam file).response.status = 404 ↔
      ∀ p ∈ (readDataFromFile file).pets, getProp p "id" ≠ num i) ∧
    ((∃ p ∈ (readDataFromFile file).pets, getProp p "id" = num i) →
      ∃ pre p post, (readDataFromFile file).pets = pre ++ p :: post ∧
        (∀ q ∈ pre, getProp q "id" ≠ num i) ∧ getProp p "id" = num i ∧
        (getById Coll.pets idParam file).response =
          { status := 200, success := true, message := Option.none, count := Option.none,
            data := Payload.record p, error := Option.none }) ∧
    (getById Coll.pets idParam file).file = file ∧
    (getById Coll.pets idParam file).written = Option.none := by
  have hcoll : (readDataFromFile file).coll Coll.pets = (readDataFromFile file).pets := rfl
  cases hfind : findById (readDataFromFile file).pets (num i) with
  | none =>
    have hnone := (findById_none_iff _ i).1 hfind
    have hresp : getById Coll.pets idParam file =
        { response := failure 404 "Pet not found", file := file, written := Option.none } := by
      unfold getById
      simp only [hparse, hcoll, hfind]
      rfl
    rw [hresp]
    refine ⟨⟨fun _ => hnone, fun _ => rfl⟩, ⟨fun _ => hnone, fun _ => rfl⟩, ?_, rfl, rfl⟩
    rintro ⟨p, hp, hpi⟩
    exact absurd hpi (hnone p hp)
  | some found =>
    obtain ⟨pre, post, hxs, hpre, hfound⟩ := findById_some _ i found hfind
    have hresp : getById Coll.pets idParam file =
        { response :=
            { status := 200, success := true, message := Option.none, count := Option.none,
              data := Payload.record found, error := Option.none }
          file := file, written := Option.none } := by
      unfold getById
      simp only [hparse, hcoll, hfind]
    have hex : ¬ ∀ p ∈ (readDataFromFile file).pets, getProp p "id" ≠ num i := by
      intro hall
      exact hall found (by rw [hxs]; simp) hfound
    rw [hresp]
    refine ⟨by simp [failure, hex], by simpa using hex, ?_, rfl, rfl⟩
    intro _
    exact ⟨pre, found, post, hxs, hpre, hfound, rfl⟩

/-- Claim C12 at the sample document: no pet has id 999 and the answer is 404; pet 3 exists and
is answered with 200. -/
theorem getById_pets_witness :
    (getById Coll.pets "999" (some sampleDocument)).response = failure 404 "Pet not found" ∧
    (∃ pre p post, (readDataFromFile (some sampleDocument)).pets = pre ++ p :: post ∧
      (∀ q ∈ pre, getProp q "id" ≠ num 3) ∧ getProp p "id" = num 3 ∧
      (getById Coll.pets "3" (some sampleDocument)).response =
        { status := 200, success := true, message := Option.none, count := Option.none,
          data := Payload.record p, error := Option.none }) ∧
    (getById Coll.pets "3" (some sampleDocument)).file = some sampleDocument :=
  ⟨(getById_pets "999" (some sampleDocument) 999 (by decide)).1.2 (by decide),
    (getById_pets "3" (some sampleDocument) 3 (by decide)).2.2.1
      ⟨sampleDocument.pets.getD 1 [], by decide, by decide⟩,
    (getById_pets "3" (some sampleDocument) 3 (by decide)).2.2.2.1⟩

/-! ## JSON documents and the frame of update and delete -/

theorem jsonRecord_eq_self (r : Record) (h : ∀ kv ∈ r, isJsonValue kv.2 = true) :
    jsonRecord r = r := by
  induction r with
  | nil => rfl
  | cons kv rest ih =>
    have hkv := h kv (by simp)
    have ih' := ih (fun x hx => h x (List.mem_cons_of_mem _ hx))
    obtain ⟨k, v⟩ := kv
    unfold jsonRecord at ih' ⊢
    cases v <;> simp_all [isJsonValue, jsonValue]

theorem jsonValues_of_isJsonRecord (r : Record) (h : isJsonRecord r = true) :
    ∀ kv ∈ r, isJsonValue kv.2 = true := by
  unfold isJsonRecord at h
  rw [Bool.and_eq_true, List.all_eq_true] at h
  exact h.1

theorem nodup_keys_of_isJsonRecord (r : Record) (h : isJsonRecord r = true) :
    (r.map (fun kv => kv.1)).Nodup := by
  unfold isJsonRecord at h
  rw [Bool.and_eq_true] at h
  simpa using h.2

theorem map_jsonRecord_eq_self (xs : List Record) (h : xs.all isJsonRecord = true) :
    xs.map jsonRecord = xs := by
  rw [List.all_eq_true] at h
  conv_rhs => rw [← List.map_id xs]
  apply List.map_congr_left
  intro r hr
  exact jsonRecord_eq_self r (jsonValues_of_isJsonRecord r (h r hr))

theorem isJsonDocument_coll (d : Document) (h : isJsonDocument d = true) (c : Coll) :
    (d.coll c).all isJsonRecord = true := by
  unfold isJsonDocument at h
  simp only [Bool.and_eq_true] at h
  cases c
  · exact h.1.1
  · exact h.1.2
  · exact h.2

theorem coll_setColl_other (d : Document) (c c' : Coll) (xs : List Record) (h : c' ≠ c) :
    (d.setColl c xs).coll c' = d.coll c' := by
  cases c <;> cases c' <;> first | rfl | exact absurd rfl h

theorem getProp_of_mem_values (r : Record) (key : String)
    (h : ∀ kv ∈ r, isJsonValue kv.2 = true) :
    getProp r key = undefined ∨ isJsonValue (getProp r key) = true := by
  induction r with
  | nil => exact Or.inl rfl
  | cons kv rest ih =>
    obtain ⟨k, v⟩ := kv
    unfold getProp
    split_ifs
    · exact Or.inr (h (k, v) (by simp))
    · exact ih (fun x hx => h x (List.mem_cons_of_mem _ hx))

theorem jsonValues_setProp (r : Record) (k : String) (v : JsVal)
    (h : ∀ kv ∈ r, isJsonValue kv.2 = true) (hv : isJsonValue v = true) :
    ∀ kv ∈ setProp r k v, isJsonValue kv.2 = true := by
  induction r with
  | nil =>
    intro kv hkv
    simp only [setProp, List.mem_singleton] at hkv
    rw [hkv]; exact hv
  | cons x rest ih =>
    obtain ⟨k', w⟩ := x
    intro kv hkv
    unfold setProp at hkv
    split_ifs at hkv
    · rcases List.mem_cons.1 hkv with rfl | hkv
      · exact hv
      · exact h kv (List.mem_cons_of_mem _ hkv)
    · rcases List.mem_cons.1 hkv with rfl | hkv
      · exact h _ (by simp)
      · exact ih (fun y hy => h y (List.mem_cons_of_mem _ hy)) kv hkv

theorem jsonValues_spread (source : Record) : ∀ target : Record,
    (∀ kv ∈ target, isJsonValue kv.2 = true) → (∀ kv ∈ source, isJsonValue kv.2 = true) →
    ∀ kv ∈ spread target source, isJsonValue kv.2 = true := by
  induction source with
  | nil => intro target ht _; exact ht
  | cons x rest ih =>
    intro target ht hs
    unfold spread
    rw [List.foldl_cons]
    exact ih (setProp target x.1 x.2)
      (jsonValues_setProp target x.1 x.2 ht (hs x (by simp)))
      (fun y hy => hs y (List.mem_cons_of_mem _ hy))

/-- Object spread reads the source for the keys it has and the target for the others. -/
theorem getProp_spread (source : Record) : ∀ target : Record,
    (source.map (fun kv => kv.1)).Nodup → ∀ key : String,
    getProp (spread target source) key =
      if hasField source key = true then getProp source key else getProp target key := by
  induction source with
  | nil => intro target _ key; simp [spread, hasField]
  | cons x rest ih =>
    obtain ⟨k, v⟩ := x
    intro target hnodup key
    rw [List.map_cons, List.nodup_cons] at hnodup
    have hstep : spread target ((k, v) :: rest) = spread (setProp target k v) rest := rfl
    rw [hstep, ih (setProp target k v) hnodup.2 key]
    by_cases hk : k = key
    · subst hk
      have hrest : hasField rest k = false := by
        cases hf : hasField rest k with
        | false => rfl
        | true => exact absurd ((hasField_iff rest k).1 hf) hnodup.1
      have hhead : hasField ((k, v) :: rest) k = true := by simp [hasField]
      have hget : getProp ((k, v) :: rest) k = v := by simp [getProp]
      rw [hrest, hhead, hget, getProp_setProp_self]
      simp
    · have hne : (k == key) = false := by simpa using hk
      simp only [hasField, List.any_cons, hne, Bool.false_or, getProp, if_neg hk,
        getProp_setProp_other _ _ _ _ hk]

theorem map_jsonRecord_values (xs : List Record)
    (h : ∀ r ∈ xs, ∀ kv ∈ r, isJsonValue kv.2 = true) : xs.map jsonRecord = xs := by
  conv_rhs => rw [← List.map_id xs]
  apply List.map_congr_left
  intro r hr
  exact jsonRecord_eq_self r (h r hr)

theorem jsonValues_coll (d : Document) (h : isJsonDocument d = true) (c : Coll) :
    ∀ r ∈ d.coll c, ∀ kv ∈ r, isJsonValue kv.2 = true := by
  intro r hr
  have hall := isJsonDocument_coll d h c
  rw [List.all_eq_true] at hall
  exact jsonValues_of_isJsonRecord r (hall r hr)

/-- Claim C16.  When the file holds a JSON document, the payload is a JSON object, the path
parameter parses to `i` and the collection holds a record with id `i`, an update whose write
succeeds answers 200 with the merged record: it has the payload's value for every payload key
other than `id`, the original value for every key absent from the payload, and id `i`.  In the
file the merged record stands where the first record with id `i` stood, the collection keeps
its length, every other record is unchanged, and the other two collections are unchanged. -/
theorem update_is_shallow_merge (c : Coll) (idParam : String) (updates : Record) (file : Store)
    (i : Int) (hparse : parseInt (str idParam) = num i)
    (hdoc : isJsonDocument (readDataFromFile file) = true)
    (hupd : isJsonRecord updates = true)
    (hex : ∃ r ∈ (readDataFromFile file).coll c, getProp r "id" = num i) :
    ∃ pre old post merged,
      (readDataFromFile file).coll c = pre ++ old :: post ∧
      (∀ q ∈ pre, getProp q "id" ≠ num i) ∧ getProp old "id" = num i ∧
      (updateById c true idParam updates file).response =
        success 200 ⟨c.noun.data ++ " updated successfully".data⟩ merged ∧
      (∀ key, hasField updates key = true → key ≠ "id" →
        getProp merged key = getProp updates key) ∧
      (∀ key, hasField updates key = false → getProp merged key = getProp old key) ∧
      getProp merged "id" = num i ∧
      (readDataFromFile (updateById c true idParam updates file).file).coll c =
        pre ++ merged :: post ∧
      ((readDataFromFile (updateById c true idParam updates file).file).coll c).length =
        ((readDataFromFile file).coll c).length ∧
      ∀ c', c' ≠ c →
        (readDataFromFile (updateById c true idParam updates file).file).coll c' =
          (readDataFromFile file).coll c' := by
  obtain ⟨pre, old, post, hxs, hpre, hold⟩ := exists_first_with_id _ i hex
  have hidx := findIndexById_first pre old post i hpre hold
  have hkeys := nodup_keys_of_isJsonRecord updates hupd
  have hvals := jsonValues_coll _ hdoc c
  have hmerged : ∀ kv ∈ setProp (spread old updates) "id" (num i),
      isJsonValue kv.2 = true :=
    jsonValues_setProp _ _ _
      (jsonValues_spread updates old (hvals old (by rw [hxs]; simp))
        (jsonValues_of_isJsonRecord updates hupd)) rfl
  have hrun : updateById c true idParam updates file =
      { response := success 200 ⟨c.noun.data ++ " updated successfully".data⟩
          (setProp (spread old updates) "id" (num i))
        file := some (jsonDocument ((readDataFromFile file).setColl c
          (pre ++ setProp (spread old updates) "id" (num i) :: post)))
        written := some ((readDataFromFile file).setColl c
          (pre ++ setProp (spread old updates) "id" (num i) :: post)) } := by
    unfold updateById
    simp only [hparse, hxs, hidx, persist_true, getD_first, set_first]
  have hstored : (readDataFromFile (updateById c true idParam updates file).file).coll c =
      pre ++ setProp (spread old updates) "id" (num i) :: post := by
    rw [hrun]
    show (jsonDocument _).coll c = _
    rw [coll_jsonDocument, coll_setColl]
    apply map_jsonRecord_values
    intro r hr
    rcases List.mem_append.1 hr with hr | hr
    · exact hvals r (by rw [hxs]; exact List.mem_append_left _ hr)
    · rcases List.mem_cons.1 hr with rfl | hr
      · exact hmerged
      · exact hvals r (by rw [hxs]; simp [hr])
  refine ⟨pre, old, post, setProp (spread old updates) "id" (num i), hxs, hpre, hold,
    by rw [hrun], ?_, ?_, getProp_setProp_self _ _ _, hstored, ?_, ?_⟩
  · intro key hkey hne
    rw [getProp_setProp_other _ _ _ _ (Ne.symm hne), getProp_spread updates old hkeys key,
      if_pos hkey]
  · intro key hkey
    by_cases hid : key = "id"
    · rw [hid, getProp_setProp_self, hold]
    · rw [getProp_setProp_other _ _ _ _ (Ne.symm hid), getProp_spread updates old hkeys key,
        if_neg (by simp [hkey])]
  · rw [hstored, hxs]
    simp
  · intro c' hc'
    rw [hrun]
    show (jsonDocument _).coll c' = _
    rw [coll_jsonDocument, coll_setColl_other _ _ _ _ hc']
    exact map_jsonRecord_values _ (jsonValues_coll _ hdoc c')

/-- Claim C17.  When the file holds a JSON document, the path parameter parses to `i` and the
collection holds a record with id `i`, a delete whose write succeeds answers 200 with the first
record whose id is `i`, and the collection in the file is the original one without exactly
that record: one record fewer, the others all present in their original order.  The other two
collections are unchanged. -/
theorem delete_removes_first (c : Coll) (idParam : String) (file : Store) (i : Int)
    (hparse : parseInt (str idParam) = num i)
    (hdoc : isJsonDocument (readDataFromFile file) = true)
    (hex : ∃ r ∈ (readDataFromFile file).coll c, getProp r "id" = num i) :
    ∃ pre p post,
      (readDataFromFile file).coll c = pre ++ p :: post ∧
      (∀ q ∈ pre, getProp q "id" ≠ num i) ∧ getProp p "id" = num i ∧
      (deleteById c true idParam file).response =
        success 200 ⟨c.noun.data ++ " deleted successfully".data⟩ p ∧
      (readDataFromFile (deleteById c true idParam file).file).coll c = pre ++ post ∧
      ((readDataFromFile (deleteById c true idParam file).file).coll c).length + 1 =
        ((readDataFromFile file).coll c).length ∧
      ∀ c', c' ≠ c →
        (readDataFromFile (deleteById c true idParam file).file).coll c' =
          (readDataFromFile file).coll c' := by
  obtain ⟨pre, p, post, hxs, hpre, hp⟩ := exists_first_with_id _ i hex
  have hidx := findIndexById_first pre p post i hpre hp
  have hvals := jsonValues_coll _ hdoc c
  have hrun : deleteById c true idParam file =
      { response := success 200 ⟨c.noun.data ++ " deleted successfully".data⟩ p
        file := some (jsonDocument ((readDataFromFile file).setColl c (pre ++ post)))
        written := some ((readDataFromFile file).setColl c (pre ++ post)) } := by
    unfold deleteById
    simp only [hparse, hxs, hidx, persist_true, getD_first, eraseIdx_first]
  have hstored : (readDataFromFile (deleteById c true idParam file).file).coll c =
      pre ++ post := by
    rw [hrun]
    show (jsonDocument _).coll c = _
    rw [coll_jsonDocument, coll_setColl]
    apply map_jsonRecord_values
    intro r hr
    rcases List.mem_append.1 hr with hr | hr
    · exact hvals r (by rw [hxs]; exact List.mem_append_left _ hr)
    · exact hvals r (by rw [hxs]; simp [hr])
  refine ⟨pre, p, post, hxs, hpre, hp, by rw [hrun], hstored, ?_, ?_⟩
  · rw [hstored, hxs]
    simp
    omega
  · intro c' hc'
    rw [hrun]
    show (jsonDocument _).coll c' = _
    rw [coll_jsonDocument, coll_setColl_other _ _ _ _ hc']
    exact map_jsonRecord_values _ (jsonValues_coll _ hdoc c')

/-! ## The create scenario for pets -/

theorem isJsonValue_of_truthy (r : Record) (key : String)
    (h : ∀ kv ∈ r, isJsonValue kv.2 = true) (ht : truthy (getProp r key) = true) :
    isJsonValue (getProp r key) = true := by
  rcases getProp_of_mem_values r key h with hu | hj
  · rw [hu] at ht; simp [truthy] at ht
  · exact hj

/-- The create scenario where the validation passes and the ids are exact.  When the file holds
a JSON document whose pet ids are safe integers and the payload is a JSON object in which every
required field has a truthy value,
`age` is the decimal string of an integer `n` and there is no `description`, a create whose
write succeeds answers 201 with the record made of the next id, the supplied name, type and
breed, `age` the integer `n`, the supplied status and location and `description` the empty
string; in the file that record is appended as the last pet, the earlier pets and the other
two collections being unchanged. -/
theorem createPet_scenario (body : Record) (file : Store) (n : Int)
    (hdoc : isJsonDocument (readDataFromFile file) = true)
    (hids : SafeIntegerIds (readDataFromFile file).pets)
    (hbody : isJsonRecord body = true)
    (htruthy : ∀ key ∈ petRequired, truthy (getProp body key) = true)
    (hage : getProp body "age" = str (numToString n))
    (hdesc : hasField body "description" = false) :
    ∃ id : Int, IsNextId (readDataFromFile file).pets id ∧
      (createPet true body file).response =
        success 201 "Pet created successfully"
          [("id", num id), ("name", getProp body "name"), ("type", getProp body "type"),
           ("breed", getProp body "breed"), ("age", num n),
           ("status", getProp body "status"), ("location", getProp body "location"),
           ("description", str "")] ∧
      (readDataFromFile (createPet true body file).file).pets =
        (readDataFromFile file).pets ++
          [[("id", num id), ("name", getProp body "name"), ("type", getProp body "type"),
            ("breed", getProp body "breed"), ("age", num n),
            ("status", getProp body "status"), ("location", getProp body "location"),
            ("description", str "")]] ∧
      (readDataFromFile (createPet true body file).file).volunteers =
        (readDataFromFile file).volunteers ∧
      (readDataFromFile (createPet true body file).file).donations =
        (readDataFromFile file).donations := by
  obtain ⟨id, hid, hnext⟩ := generateId_spec _ hids
  have hvalid : (createPet true body file).response.status ≠ 400 := by
    intro h400
    obtain ⟨key, hkey, hfalse⟩ :=
      (create_400_iff_falsy (fun v => v) "" true body file).1.1 h400
    rw [htruthy key hkey] at hfalse
    exact absurd hfalse (by decide)
  have hnew : newPet body (readDataFromFile file) =
      [("id", num id), ("name", getProp body "name"), ("type", getProp body "type"),
       ("breed", getProp body "breed"), ("age", num n),
       ("status", getProp body "status"), ("location", getProp body "location"),
       ("description", str "")] := by
    unfold newPet
    rw [hid, hage, parseInt_numToString, getProp_eq_undefined body "description" hdesc]
    simp [truthy]
  have hbvals := jsonValues_of_isJsonRecord body hbody
  have hrec : ∀ kv ∈ newPet body (readDataFromFile file), isJsonValue kv.2 = true := by
    have hj : ∀ key ∈ petRequired, isJsonValue (getProp body key) = true :=
      fun key hkey => isJsonValue_of_truthy body key hbvals (htruthy key hkey)
    rw [hnew]
    intro kv hkv
    simp only [List.mem_cons, List.mem_singleton, List.not_mem_nil, or_false] at hkv
    rcases hkv with rfl | rfl | rfl | rfl | rfl | rfl | rfl | rfl
    · rfl
    · exact hj "name" (by decide)
    · exact hj "type" (by decide)
    · exact hj "breed" (by decide)
    · rfl
    · exact hj "status" (by decide)
    · exact hj "location" (by decide)
    · rfl
  have hrun := createPet_valid true body file hvalid
  rw [persist_true] at hrun
  refine ⟨id, hnext, by rw [hrun, hnew], ?_, ?_, ?_⟩
  · rw [hrun, ← hnew]
    show ((readDataFromFile file).pets ++ [newPet body (readDataFromFile file)]).map
      jsonRecord = _
    apply map_jsonRecord_values
    intro r hr
    rcases List.mem_append.1 hr with hr | hr
    · exact jsonValues_coll _ hdoc Coll.pets r hr
    · rw [List.mem_singleton.1 hr]; exact hrec
  · rw [hrun]
    exact map_jsonRecord_values _ (jsonValues_coll _ hdoc Coll.volunteers)
  · rw [hrun]
    exact map_jsonRecord_values _ (jsonValues_coll _ hdoc Coll.donations)

/-- Claim C11 on the code.  A payload whose six required fields are all present, with `age` the
decimal string of 2 and no `description`, but whose `name` is the empty string, is answered 400,
not 201, and nothing is stored, while the payload of the scenario is answered 201: the
validation tests truthiness, not presence. -/
theorem createPet_rejects_present_empty_name :
    (∀ key ∈ petRequired, hasField emptyNamePayload key = true) ∧
    getProp emptyNamePayload "age" = str (numToString 2) ∧
    hasField emptyNamePayload "description" = false ∧
    (createPet true emptyNamePayload (some sampleDocument)).response.status = 400 ∧
    ¬ ((createPet true emptyNamePayload (some sampleDocument)).response.status = 201) ∧
    (createPet true emptyNamePayload (some sampleDocument)).file = some sampleDocument ∧
    (createPet true rexPayload (some sampleDocument)).response.status = 201 := by
  decide

/-- Claim C16 at the sample document: pet 3 is updated with a payload carrying `id` 1 and a
new name. -/
theorem update_is_shallow_merge_witness :
    ∃ pre old post merged,
      (readDataFromFile (some sampleDocument)).coll Coll.pets = pre ++ old :: post ∧
      (∀ q ∈ pre, getProp q "id" ≠ num 3) ∧ getProp old "id" = num 3 ∧
      (updateById Coll.pets true "3" renumberPayload (some sampleDocument)).response =
        success 200 ⟨Coll.pets.noun.data ++ " updated successfully".data⟩ merged ∧
      (∀ key, hasField renumberPayload key = true → key ≠ "id" →
        getProp merged key = getProp renumberPayload key) ∧
      (∀ key, hasField renumberPayload key = false → getProp merged key = getProp old key) ∧
      getProp merged "id" = num 3 ∧
      (readDataFromFile (updateById Coll.pets true "3" renumberPayload
        (some sampleDocument)).file).coll Coll.pets = pre ++ merged :: post ∧
      ((readDataFromFile (updateById Coll.pets true "3" renumberPayload
        (some sampleDocument)).file).coll Coll.pets).length =
        ((readDataFromFile (some sampleDocument)).coll Coll.pets).length ∧
      ∀ c', c' ≠ Coll.pets →
        (readDataFromFile (updateById Coll.pets true "3" renumberPayload
          (some sampleDocument)).file).coll c' =
          (readDataFromFile (some sampleDocument)).coll c' :=
  update_is_shallow_merge Coll.pets "3" renumberPayload (some sampleDocument) 3 (by decide)
    (by decide) (by decide) ⟨sampleDocument.pets.getD 1 [], by decide, by decide⟩

/-- Claim C17 at the sample document: pet 1 is deleted and pet 3 remains. -/
theorem delete_removes_first_witness :
    ∃ pre p post,
      (readDataFromFile (some sampleDocument)).coll Coll.pets = pre ++ p :: post ∧
      (∀ q ∈ pre, getProp q "id" ≠ num 1) ∧ getProp p "id" = num 1 ∧
      (deleteById Coll.pets true "1" (some sampleDocument)).response =
        success 200 ⟨Coll.pets.noun.data ++ " deleted successfully".data⟩ p ∧
      (readDataFromFile (deleteById Coll.pets true "1" (some sampleDocument)).file).coll
        Coll.pets = pre ++ post ∧
      ((readDataFromFile (deleteById Coll.pets true "1" (some sampleDocument)).file).coll
        Coll.pets).length + 1 = ((readDataFromFile (some sampleDocument)).coll Coll.pets).length ∧
      ∀ c', c' ≠ Coll.pets →
        (readDataFromFile (deleteById Coll.pets true "1" (some sampleDocument)).file).coll c' =
          (readDataFromFile (some sampleDocument)).coll c' :=
  delete_removes_first Coll.pets "1" (some sampleDocument) 1 (by decide) (by decide)
    ⟨sampleDocument.pets.getD 0 [], by decide, by decide⟩

end Pawtner
